import Mathlib

/-!
Verification of the pc-receiver audio streaming core: packet codec, FEC
encoder/decoder, jitter buffer, adaptive jitter buffer and network monitor,
modelled as executable Lean definitions translated from the C++ sources.

Machine-integer conventions used throughout the embedding:
* bytes are natural numbers below 256; `x & 0xFF` is `x % 256` and `x >> k`
  is `x / 2 ^ k` on unsigned values;
* the little-endian reassembly `b0 | (b1 << 8) | ...` ORs disjoint byte
  lanes, which on byte values equals `b0 + b1 * 2 ^ 8 + ...`;
* `uint32_t` / `uint64_t` arithmetic wraps, written with explicit
  `% 2 ^ 32` / `% 2 ^ 64` where the source can overflow.
-/

namespace AudioStreamer

/-- `k`-th little-endian byte of `x` (`(x >> 8 k) & 0xFF`). -/
def byte (x k : Nat) : Nat := x / 2 ^ (8 * k) % 256

/-- Little-endian 16-bit read at offset `off` (missing bytes read as 0). -/
def le16 (data : List Nat) (off : Nat) : Nat :=
  data.getD off 0 + data.getD (off + 1) 0 * 2 ^ 8

/-- Little-endian 32-bit read at offset `off`. -/
def le32 (data : List Nat) (off : Nat) : Nat :=
  data.getD off 0 + data.getD (off + 1) 0 * 2 ^ 8 +
  data.getD (off + 2) 0 * 2 ^ 16 + data.getD (off + 3) 0 * 2 ^ 24

/-- Little-endian 64-bit read at offset `off`. -/
def le64 (data : List Nat) (off : Nat) : Nat :=
  data.getD off 0 + data.getD (off + 1) 0 * 2 ^ 8 +
  data.getD (off + 2) 0 * 2 ^ 16 + data.getD (off + 3) 0 * 2 ^ 24 +
  data.getD (off + 4) 0 * 2 ^ 32 + data.getD (off + 5) 0 * 2 ^ 40 +
  data.getD (off + 6) 0 * 2 ^ 48 + data.getD (off + 7) 0 * 2 ^ 56

/-- On-wire audio datagram (`src/pc-receiver/src/network/packet.h`):
`sequence_id : uint32`, `timestamp : uint64`, `payload_size : uint32`,
`payload : vector<uint8_t>`. -/
structure AudioPacket where
  sequence_id : Nat
  timestamp : Nat
  payload_size : Nat
  payload : List Nat
deriving DecidableEq, Repr

/-- `AudioPacket::serialize`: 16-byte little-endian header followed by the
payload bytes. -/
def AudioPacket.serialize (p : AudioPacket) : List Nat :=
  [byte p.sequence_id 0, byte p.sequence_id 1, byte p.sequence_id 2, byte p.sequence_id 3,
   byte p.timestamp 0, byte p.timestamp 1, byte p.timestamp 2, byte p.timestamp 3,
   byte p.timestamp 4, byte p.timestamp 5, byte p.timestamp 6, byte p.timestamp 7,
   byte p.payload_size 0, byte p.payload_size 1, byte p.payload_size 2, byte p.payload_size 3]
  ++ p.payload

/-- `AudioPacket::is_valid`: `payload_size == payload.size() && payload_size <= 65536`. -/
def AudioPacket.is_valid (p : AudioPacket) : Prop :=
  p.payload_size = p.payload.length ∧ p.payload_size ≤ 65536

instance (p : AudioPacket) : Decidable p.is_valid := by
  unfold AudioPacket.is_valid; infer_instance

/-- `AudioPacket::deserialize(data, size)`.  The guard
`size < 16 + packet->payload_size` is evaluated in 32-bit unsigned
arithmetic (`int + uint32_t`), hence the explicit `% 2 ^ 32` wrap.
`payload.resize(payload_size)` followed by a `memcpy` of `payload_size`
bytes from offset 16 always leaves `payload.size() == payload_size`;
bytes beyond the input (reachable only when the 32-bit guard wrapped,
an out-of-bounds read in the source) are modelled as zeroes. -/
def AudioPacket.deserialize (data : List Nat) : Option AudioPacket :=
  if data.length < 16 then
    none
  else
    let seq := le32 data 0
    let ts := le64 data 4
    let psz := le32 data 12
    if data.length < (16 + psz) % 2 ^ 32 then
      none
    else
      let avail := data.drop 16
      let p : AudioPacket :=
        ⟨seq, ts, psz, avail.take psz ++ List.replicate (psz - avail.length) 0⟩
      if p.is_valid then some p else none

/-- `AudioPacket::total_size`. -/
def AudioPacket.total_size (p : AudioPacket) : Nat := 16 + p.payload_size

def oversizedDatagram : List Nat :=
  [0, 0, 0, 0, 0, 0, 0, 0, 0, 0, 0, 0, 221, 5, 0, 0] ++ List.replicate 1501 7

/-! FEC wire format (`fec_encoder.cpp`) and decoder (`fec_decoder.cpp`).
`FECPacketType` is a `uint8_t` enum with `PRIMARY = 0x01`, `REDUNDANT = 0x02`;
an arbitrary byte cast to it keeps its value, so `packet_type` is a plain
byte here. -/

def FEC_PRIMARY : Nat := 1

def FEC_REDUNDANT : Nat := 2

structure FECHeader where
  packet_type : Nat
  sequence_id : Nat
  redundant_sequence_id : Nat
  redundant_data_size : Nat
  redundancy_level : Nat
  reserved : Nat
deriving DecidableEq, Repr

def FECHeader.HEADER_SIZE : Nat := 13

/-- `FECHeader::serialize`: 13 bytes, little endian. -/
def FECHeader.serialize (h : FECHeader) : List Nat :=
  [h.packet_type % 256,
   byte h.sequence_id 0, byte h.sequence_id 1, byte h.sequence_id 2, byte h.sequence_id 3,
   byte h.redundant_sequence_id 0, byte h.redundant_sequence_id 1,
   byte h.redundant_sequence_id 2, byte h.redundant_sequence_id 3,
   byte h.redundant_data_size 0, byte h.redundant_data_size 1,
   h.redundancy_level % 256, h.reserved % 256]

/-- `FECHeader::deserialize`: total; inputs shorter than `HEADER_SIZE`
yield the value-initialized (`FECHeader header{}`) all-zero header. -/
def FECHeader.deserialize (data : List Nat) : FECHeader :=
  if data.length < FECHeader.HEADER_SIZE then
    ⟨0, 0, 0, 0, 0, 0⟩
  else
    ⟨data.getD 0 0, le32 data 1, le32 data 5, le16 data 9, data.getD 11 0, data.getD 12 0⟩

structure StoredPacket where
  sequence_id : Nat
  data : List Nat
  packet_type : Nat
  redundant_sequence_id : Nat
  timestamp_ms : Nat
  is_primary_data : Bool
deriving DecidableEq, Repr

structure FECRecoveryResult where
  success : Bool := false
  sequence_id : Nat := 0
  recovered_data : List Nat := []
  was_recovered_from_redundancy : Bool := false
  redundant_packet_used : Nat := 0
  recovery_delay_packets : Nat := 0
deriving DecidableEq, Repr

/-- Decoder statistics; the `double` EWMA field is modelled exactly over ℚ. -/
structure FECDecodeStats where
  primary_packets_received : Nat := 0
  redundant_packets_received : Nat := 0
  packets_recovered : Nat := 0
  recovery_attempts : Nat := 0
  recovery_failures : Nat := 0
  packets_lost_unrecoverable : Nat := 0
  average_recovery_delay_ms : ℚ := 0
  max_recovery_delay_packets : Nat := 0
deriving DecidableEq, Repr

/-- Insert-or-assign (`map[k] = v`) on a `std::map` snapshot.  Only lookup,
membership and filtering observe the snapshots, so the association-list
order is immaterial; keys stay unique. -/
def kvPut {β : Type} (m : List (Nat × β)) (k : Nat) (v : β) : List (Nat × β) :=
  (k, v) :: m.filter (fun kv => kv.1 != k)

def PACKET_TIMEOUT_MS : Nat := 1000

def MAX_BUFFER_SIZE : Nat := 100

structure FECDecoder where
  max_recovery_distance : Nat
  buffer_size : Nat
  primary_packets : List (Nat × StoredPacket) := []
  redundant_packets : List (Nat × List StoredPacket) := []
  stats : FECDecodeStats := {}
  recovery_timestamps : List (Nat × Nat) := []
deriving DecidableEq, Repr

def mkFECDecoder (max_recovery_distance buffer_size : Nat) : FECDecoder :=
  { max_recovery_distance := max_recovery_distance
    buffer_size := min buffer_size MAX_BUFFER_SIZE }

def FECDecoder.is_packet_in_recovery_window (d : FECDecoder) (sid cur : Nat) : Bool :=
  if cur < sid then false else decide (cur - sid ≤ d.max_recovery_distance)

/-- `cleanup_expired_packets(current_sequence_id)`; `now` is the steady
clock in ms, at or after every stored timestamp, so the `uint64`
subtraction equals truncated subtraction. -/
def FECDecoder.cleanup_expired_packets (d : FECDecoder) (cur now : Nat) : FECDecoder :=
  { d with
    primary_packets := d.primary_packets.filter (fun kv =>
      decide (now - kv.2.timestamp_ms ≤ PACKET_TIMEOUT_MS) &&
      d.is_packet_in_recovery_window kv.1 cur)
    redundant_packets := d.redundant_packets.filter (fun kv =>
      d.is_packet_in_recovery_window kv.1 cur &&
      (kv.2.isEmpty || kv.2.any (fun p => decide (now - p.timestamp_ms ≤ PACKET_TIMEOUT_MS))))
    recovery_timestamps := d.recovery_timestamps.filter (fun kv =>
      decide (now - kv.2 ≤ PACKET_TIMEOUT_MS)) }

/-- `FECDecoder::process_packet`. -/
def FECDecoder.process_packet (d : FECDecoder) (packet_data : List Nat) (now : Nat) :
    FECDecoder × FECRecoveryResult :=
  if packet_data.length < FECHeader.HEADER_SIZE then
    (d, {})
  else
    let header := FECHeader.deserialize packet_data
    let payload_data := packet_data.drop FECHeader.HEADER_SIZE
    let stored_packet : StoredPacket :=
      ⟨header.sequence_id, payload_data, header.packet_type,
       header.redundant_sequence_id, now, header.packet_type == FEC_PRIMARY⟩
    if header.packet_type = FEC_PRIMARY then
      let d1 := { d with
        primary_packets := kvPut d.primary_packets header.sequence_id stored_packet
        stats := { d.stats with
          primary_packets_received := d.stats.primary_packets_received + 1 } }
      (d1.cleanup_expired_packets header.sequence_id now,
       { success := true, sequence_id := header.sequence_id,
         recovered_data := payload_data, was_recovered_from_redundancy := false })
    else if header.packet_type = FEC_REDUNDANT then
      let d1 := { d with
        redundant_packets := kvPut d.redundant_packets header.redundant_sequence_id
          ((d.redundant_packets.lookup header.redundant_sequence_id).getD [] ++ [stored_packet])
        stats := { d.stats with
          redundant_packets_received := d.stats.redundant_packets_received + 1 } }
      (d1.cleanup_expired_packets header.sequence_id now, {})
    else
      (d.cleanup_expired_packets header.sequence_id now, {})

/-- `FECDecoder::try_recover_from_redundancy`. -/
def FECDecoder.try_recover_from_redundancy (d : FECDecoder) (sid now : Nat) :
    FECDecoder × FECRecoveryResult :=
  match (d.redundant_packets.lookup sid).getD [] with
  | [] =>
    ({ d with stats :=
        { d.stats with recovery_failures := d.stats.recovery_failures + 1 } }, {})
  | rp :: _ =>
    ({ d with
        stats := { d.stats with
          packets_recovered := d.stats.packets_recovered + 1
          max_recovery_delay_packets :=
            if sid < rp.sequence_id then
              max d.stats.max_recovery_delay_packets (rp.sequence_id - sid)
            else d.stats.max_recovery_delay_packets }
        recovery_timestamps := kvPut d.recovery_timestamps sid now },
     { success := true, sequence_id := sid, recovered_data := rp.data,
       was_recovered_from_redundancy := true, redundant_packet_used := rp.sequence_id,
       recovery_delay_packets := if sid < rp.sequence_id then rp.sequence_id - sid else 0 })

/-- `FECDecoder::update_recovery_stats` (EWMA with α = 0.1, 2.5 ms/packet). -/
def FECDecoder.update_recovery_stats (d : FECDecoder) (result : FECRecoveryResult) : FECDecoder :=
  if !result.success then d
  else if result.was_recovered_from_redundancy ∧ 0 < result.recovery_delay_packets then
    { d with stats := { d.stats with average_recovery_delay_ms :=
        if d.stats.average_recovery_delay_ms = 0 then
          (result.recovery_delay_packets : ℚ) * (5 / 2)
        else
          (9 / 10) * d.stats.average_recovery_delay_ms +
          (1 / 10) * ((result.recovery_delay_packets : ℚ) * (5 / 2)) } }
  else d

/-- `FECDecoder::recover_packet`. -/
def FECDecoder.recover_packet (d : FECDecoder) (sid now : Nat) :
    FECDecoder × FECRecoveryResult :=
  let d0 := { d with stats :=
    { d.stats with recovery_attempts := d.stats.recovery_attempts + 1 } }
  match d0.primary_packets.lookup sid with
  | some sp =>
    (d0, { success := true, sequence_id := sid, recovered_data := sp.data,
           was_recovered_from_redundancy := false })
  | none =>
    let step := d0.try_recover_from_redundancy sid now
    (step.1.update_recovery_stats step.2, step.2)

def primaryDemoDecoder : FECDecoder :=
  ((mkFECDecoder 5 20).process_packet
    (FECHeader.serialize ⟨FEC_PRIMARY, 7, 0, 2, 20, 0⟩ ++ [9, 9]) 100).1

def redundantDemoDecoder : FECDecoder :=
  ((mkFECDecoder 5 20).process_packet
    (FECHeader.serialize ⟨FEC_REDUNDANT, 8, 7, 2, 20, 0⟩ ++ [4, 5]) 100).1

/-! FEC encoder (`fec_encoder.cpp`).  `redundancy_percentage` is a `double`
clamped into [0, 50]; it and the stats averages are modelled exactly over ℚ.
`static_cast<uint8_t>` of the clamped percentage is truncation toward zero,
i.e. `⌊·⌋₊ % 256`; `static_cast<uint16_t>` of a size is `% 2 ^ 16`. -/

structure FECConfig where
  redundancy_percentage : ℚ := 20
  max_recovery_distance : Nat := 5
  window_size : Nat := 10
  adaptive_redundancy : Bool := true
deriving DecidableEq, Repr

structure PacketRecord where
  sequence_id : Nat
  data : List Nat
  timestamp_ms : Nat
deriving DecidableEq, Repr

structure FECStats where
  primary_packets_encoded : Nat := 0
  redundant_packets_generated : Nat := 0
  current_redundancy_percentage : ℚ := 0
  average_redundancy_percentage : ℚ := 0
  current_window_size : Nat := 0
deriving DecidableEq, Repr

def MIN_REDUNDANCY_PERCENTAGE : ℚ := 0

def MAX_REDUNDANCY_PERCENTAGE : ℚ := 50

def MAX_WINDOW_SIZE : Nat := 20

structure FECEncoder where
  config : FECConfig
  packet_window : List PacketRecord := []
  stats : FECStats := {}
deriving DecidableEq, Repr

/-- `FECEncoder::FECEncoder`: clamp the configuration. -/
def mkFECEncoder (config : FECConfig) : FECEncoder :=
  let cfg := { config with
    redundancy_percentage :=
      min (max config.redundancy_percentage MIN_REDUNDANCY_PERCENTAGE) MAX_REDUNDANCY_PERCENTAGE
    window_size := min config.window_size MAX_WINDOW_SIZE }
  { config := cfg
    stats := { current_redundancy_percentage := cfg.redundancy_percentage } }

/-- `FECEncoder::create_primary_packet`. -/
def FECEncoder.create_primary_packet (e : FECEncoder) (sequence_id : Nat)
    (audio_data : List Nat) : List Nat :=
  FECHeader.serialize
    ⟨FEC_PRIMARY, sequence_id, 0, 0, ⌊e.config.redundancy_percentage⌋₊ % 256, 0⟩
  ++ audio_data

/-- `FECEncoder::update_packet_window`: push the new record at the back,
then pop the front while the size exceeds `window_size` — i.e. keep the
last `window_size` records. -/
def FECEncoder.update_packet_window (e : FECEncoder) (sequence_id : Nat)
    (audio_data : List Nat) (now : Nat) : List PacketRecord :=
  let w := e.packet_window ++ [⟨sequence_id, audio_data, now⟩]
  w.drop (w.length - e.config.window_size)

/-- `FECEncoder::calculate_redundant_packet_count`.  Called only with a
non-empty window (`encode_packet` guards on `size > 1`), where the
truncated `Nat` subtraction agrees with `size_t`. -/
def FECEncoder.calculate_redundant_packet_count (e : FECEncoder) : Nat :=
  if e.config.redundancy_percentage ≤ 0 then 0
  else
    min (min ⌈e.config.redundancy_percentage / 100 * (e.config.window_size : ℚ)⌉₊
      (e.packet_window.length - 1)) e.config.max_recovery_distance

/-- `FECEncoder::generate_redundant_packets`: the loop
`for i < redundant_count && i < window.size() - 1`. -/
def FECEncoder.generate_redundant_packets (e : FECEncoder) (sequence_id : Nat) :
    List (List Nat) :=
  (List.range (min e.calculate_redundant_packet_count (e.packet_window.length - 1))).map
    (fun i =>
      let old_packet := e.packet_window.getD (e.packet_window.length - 2 - i) ⟨0, [], 0⟩
      FECHeader.serialize
        ⟨FEC_REDUNDANT, sequence_id, old_packet.sequence_id,
         old_packet.data.length % 2 ^ 16,
         ⌊e.config.redundancy_percentage⌋₊ % 256, 0⟩
      ++ old_packet.data)

/-- `FECEncoder::encode_packet`; `now` is the steady clock in ms, at or
after every window timestamp, so the trailing `cleanup_old_packets`
subtraction equals truncated subtraction. -/
def FECEncoder.encode_packet (e : FECEncoder) (sequence_id : Nat)
    (audio_data : List Nat) (now : Nat) : FECEncoder × List (List Nat) :=
  let primary_packet := e.create_primary_packet sequence_id audio_data
  let e1 := { e with packet_window := e.update_packet_window sequence_id audio_data now }
  let result :=
    if 1 < e1.packet_window.length then
      primary_packet :: e1.generate_redundant_packets sequence_id
    else [primary_packet]
  let stats1 := { e1.stats with
    primary_packets_encoded := e1.stats.primary_packets_encoded + 1
    redundant_packets_generated := e1.stats.redundant_packets_generated + (result.length - 1) }
  let stats2 := { stats1 with
    average_redundancy_percentage :=
      if 0 < stats1.primary_packets_encoded then
        (stats1.redundant_packets_generated : ℚ) / (stats1.primary_packets_encoded : ℚ) * 100
      else stats1.average_redundancy_percentage
    current_window_size := e1.packet_window.length }
  ({ e1 with
      stats := stats2
      packet_window := e1.packet_window.filter
        (fun r => decide (now - r.timestamp_ms ≤ 1000)) },
   result)

def fecEncoderDemo : FECEncoder :=
  (((mkFECEncoder {}).encode_packet 1 [10] 0).1.encode_packet 2 [20, 21] 0).1

/-! Network monitor (`network_monitor.cpp`).  `packets_sent` and
`packets_received` are `uint64_t` counters, so the subtraction in
`calculate_packet_loss` wraps at 2^64; the `double` loss percentage is
modelled exactly over ℚ. -/

inductive MonitorEvent where
  | packet_sent (sequence_id size_bytes : Nat)
  | packet_received (sequence_id size_bytes : Nat)
  | rtt_sample (rtt_us : Nat)
deriving DecidableEq, Repr

structure NetworkMonitorState where
  window_size : Nat := 100
  packets_sent : Nat := 0
  packets_received : Nat := 0
  bytes_sent : Nat := 0
  bytes_received : Nat := 0
  rtt_samples : List Nat := []
deriving DecidableEq, Repr

/-- One `record_packet_sent` / `record_packet_received` / `record_rtt` call. -/
def NetworkMonitorState.record_event (s : NetworkMonitorState) :
    MonitorEvent → NetworkMonitorState
  | .packet_sent _ size_bytes =>
    { s with packets_sent := (s.packets_sent + 1) % 2 ^ 64
             bytes_sent := (s.bytes_sent + size_bytes) % 2 ^ 64 }
  | .packet_received _ size_bytes =>
    { s with packets_received := (s.packets_received + 1) % 2 ^ 64
             bytes_received := (s.bytes_received + size_bytes) % 2 ^ 64 }
  | .rtt_sample rtt_us =>
    { s with rtt_samples :=
        if s.window_size < (s.rtt_samples ++ [rtt_us]).length then
          (s.rtt_samples ++ [rtt_us]).tail
        else s.rtt_samples ++ [rtt_us] }

def NetworkMonitorState.run (s : NetworkMonitorState) :
    List MonitorEvent → NetworkMonitorState
  | [] => s
  | ev :: rest => (s.record_event ev).run rest

/-- `NetworkMonitor::calculate_packet_loss`: `packets_lost` is
`packets_sent - packets_received` on `uint64_t` (wrapping), and the rate is
`lost / sent * 100`. -/
def NetworkMonitorState.packet_loss_rate (s : NetworkMonitorState) : ℚ :=
  if s.packets_sent = 0 then 0
  else
    (((s.packets_sent + 2 ^ 64 - s.packets_received) % 2 ^ 64 : Nat) : ℚ) /
      (s.packets_sent : ℚ) * 100

/-! Jitter buffer (`jitter_buffer.cpp`).  The `std::map` keyed by
`sequence_id` is modelled as a list of entries with strictly increasing
`sequence_id` (the map's iteration order); `begin()` is the head.  PCM
samples (`float`) are an opaque element type `α`.  The `initialized_` flag
is named `ready` here, and the `double` jitter accumulator is modelled
over ℚ. -/

structure JEntry (α : Type) where
  sequence_id : Nat
  timestamp : Nat
  audio_data : List α
deriving DecidableEq

def MIN_CAPACITY : Nat := 1

def MAX_CAPACITY : Nat := 20

def MIN_FRAME_SIZE : Nat := 64

def MAX_FRAME_SIZE : Nat := 1024

def MIN_CHANNELS : Nat := 1

def MAX_CHANNELS : Nat := 2

structure JitterBuffer (α : Type) where
  capacity : Nat
  frame_size : Nat
  channels : Nat
  ready : Bool
  buffer : List (JEntry α) := []
  next_expected_sequence : Nat := 0
  last_sequence_added : Nat := 0
  packets_added : Nat := 0
  packets_retrieved : Nat := 0
  packets_dropped : Nat := 0
  duplicates_dropped : Nat := 0
  last_packet_timestamp : Nat := 0
  jitter_sum_ms : ℚ := 0
  jitter_count : Nat := 0
  max_sequence_gap : Nat := 0
deriving DecidableEq

/-- `JitterBuffer::JitterBuffer`: parameter validation sets `initialized_`. -/
def mkJitterBuffer (α : Type) (capacity frame_size channels : Nat) : JitterBuffer α :=
  { capacity := capacity, frame_size := frame_size, channels := channels
    ready := decide (MIN_CAPACITY ≤ capacity ∧ capacity ≤ MAX_CAPACITY ∧
      MIN_FRAME_SIZE ≤ frame_size ∧ frame_size ≤ MAX_FRAME_SIZE ∧
      MIN_CHANNELS ≤ channels ∧ channels ≤ MAX_CHANNELS) }

/-- Key-ordered insertion into the `std::map` snapshot. -/
def insertEntry {α : Type} (e : JEntry α) : List (JEntry α) → List (JEntry α)
  | [] => [e]
  | x :: xs =>
    if e.sequence_id < x.sequence_id then e :: x :: xs
    else x :: insertEntry e xs

/-- `JitterBuffer::update_jitter_stats`. -/
def JitterBuffer.update_jitter_stats {α : Type} (b : JitterBuffer α) (timestamp : Nat) :
    JitterBuffer α :=
  if b.last_packet_timestamp ≠ 0 then
    { b with
      jitter_sum_ms := b.jitter_sum_ms +
        ((if b.last_packet_timestamp < timestamp then timestamp - b.last_packet_timestamp
          else b.last_packet_timestamp - timestamp : Nat) : ℚ) / 1000
      jitter_count := b.jitter_count + 1
      last_packet_timestamp := timestamp }
  else { b with last_packet_timestamp := timestamp }

/-- `JitterBuffer::drop_oldest_packet`: erase the smallest key. -/
def JitterBuffer.drop_oldest_packet {α : Type} (b : JitterBuffer α) : JitterBuffer α :=
  if b.buffer.isEmpty then b
  else { b with buffer := b.buffer.tail, packets_dropped := b.packets_dropped + 1 }

/-- The insertion step of `add_packet`: add the packet to the map and
update `packets_added` / `last_sequence_added`. -/
def JitterBuffer.insert_step {α : Type} (b : JitterBuffer α) (sequence_id timestamp : Nat)
    (audio_data : List α) : JitterBuffer α :=
  { b with
    buffer := insertEntry ⟨sequence_id, timestamp, audio_data⟩ b.buffer
    packets_added := b.packets_added + 1
    last_sequence_added := sequence_id }

/-- The sequence-gap tracking step at the end of `add_packet`. -/
def JitterBuffer.gap_step {α : Type} (b : JitterBuffer α) (sequence_id : Nat) :
    JitterBuffer α :=
  if 1 < b.packets_added then
    { b with max_sequence_gap := max b.max_sequence_gap (if b.next_expected_sequence < sequence_id then sequence_id - b.next_expected_sequence else 0) }
  else b

/-- `JitterBuffer::add_packet`. -/
def JitterBuffer.add_packet {α : Type} (b : JitterBuffer α) (sequence_id timestamp : Nat)
    (audio_data : List α) : JitterBuffer α × Bool :=
  if !b.ready then (b, false)
  else if audio_data.length ≠ b.frame_size * b.channels then (b, false)
  else if b.buffer.any (fun e => e.sequence_id == sequence_id) then
    ({ b with duplicates_dropped := b.duplicates_dropped + 1 }, false)
  else
    ((((if b.capacity ≤ b.buffer.length then b.drop_oldest_packet else b).insert_step
        sequence_id timestamp audio_data).update_jitter_stats timestamp).gap_step
      sequence_id, true)

/-- `JitterBuffer::get_next_packet`: pop the entry with the smallest key. -/
def JitterBuffer.get_next_packet {α : Type} (b : JitterBuffer α) :
    JitterBuffer α × Option (JEntry α) :=
  if !b.ready then (b, none)
  else
    match b.buffer with
    | [] => (b, none)
    | e :: rest =>
      let b' := { b with buffer := rest, next_expected_sequence := e.sequence_id + 1, packets_retrieved := b.packets_retrieved + 1 }
      (b', some e)

/-- Well-formedness of a jitter-buffer state: the map snapshot is sorted
with unique keys, respects the capacity, every stored frame has the
validated length, and a `ready` buffer has in-range parameters. -/
def JitterBuffer.wf {α : Type} (b : JitterBuffer α) : Prop :=
  b.buffer.Pairwise (fun x y => x.sequence_id < y.sequence_id) ∧
  b.buffer.length ≤ b.capacity ∧
  (∀ e ∈ b.buffer, e.audio_data.length = b.frame_size * b.channels) ∧
  (b.ready = true → MIN_CAPACITY ≤ b.capacity ∧ b.capacity ≤ MAX_CAPACITY ∧
    MIN_FRAME_SIZE ≤ b.frame_size ∧ b.frame_size ≤ MAX_FRAME_SIZE ∧
    MIN_CHANNELS ≤ b.channels ∧ b.channels ≤ MAX_CHANNELS)

/-! Adaptive jitter buffer (`adaptive_jitter_buffer.cpp`).  The adaptation
tick (`should_adapt` / `update_adaptation`) is wall-clock- and
network-monitor-driven; with no monitor attached `update_adaptation`
returns immediately, so `add_packet` reduces to delegation and capacity
changes enter through `set_capacity` / `apply_capacity_change`.  The
`double` utilization-history averaging (which can produce NaN on an
uninitialized buffer) is floating-point statistics only and is not
modelled; the `overruns` / `underruns` counters it feeds are. -/

structure AdaptiveJitterConfig where
  min_capacity : Nat := 3
  max_capacity : Nat := 10
  default_capacity : Nat := 5
  adaptation_rate : ℚ := 1 / 10
  packet_loss_threshold : ℚ := 5
  jitter_threshold_us : Nat := 10000
  rtt_threshold_us : Nat := 50000
  stability_window : Nat := 10
  stability_threshold : ℚ := 1 / 5
deriving DecidableEq, Repr

structure AdaptiveStats where
  current_capacity : Nat := 0
  target_capacity : Nat := 0
  adaptation_factor : ℚ := 1
  current_packet_loss_rate : ℚ := 0
  current_rtt_us : Nat := 0
  current_jitter_us : Nat := 0
  adaptations_count : Nat := 0
  capacity_increases : Nat := 0
  capacity_decreases : Nat := 0
  underruns : Nat := 0
  overruns : Nat := 0
deriving DecidableEq, Repr

def MAX_CAPACITY_HISTORY : Nat := 20

structure AdaptiveJitterBuffer (α : Type) where
  config : AdaptiveJitterConfig
  frame_size : Nat
  channels : Nat
  jitter_buffer : JitterBuffer α
  stats : AdaptiveStats
  capacity_history : List Nat := []
deriving DecidableEq

/-- `AdaptiveJitterBuffer::AdaptiveJitterBuffer`: validate the
configuration (`std::clamp v lo hi = min (max v lo) hi`) and create the
initial buffer at the default capacity. -/
def mkAdaptiveJitterBuffer (α : Type) (frame_size channels : Nat)
    (config : AdaptiveJitterConfig) : AdaptiveJitterBuffer α :=
  let vmin := max 1 config.min_capacity
  let vmax := max vmin config.max_capacity
  let cfg := { config with
    min_capacity := vmin
    max_capacity := vmax
    default_capacity := min (max config.default_capacity vmin) vmax
    adaptation_rate := min (max config.adaptation_rate 0) 1 }
  { config := cfg, frame_size := frame_size, channels := channels
    jitter_buffer := mkJitterBuffer α cfg.default_capacity frame_size channels
    stats := { current_capacity := cfg.default_capacity
               target_capacity := cfg.default_capacity
               adaptation_factor := 1 } }

/-- `AdaptiveJitterBuffer::add_packet`: delegate, then update the
utilization statistics (`overruns` when the buffer is full). -/
def AdaptiveJitterBuffer.add_packet {α : Type} (a : AdaptiveJitterBuffer α)
    (sequence_id timestamp : Nat) (audio_data : List α) :
    AdaptiveJitterBuffer α × Bool :=
  let r := a.jitter_buffer.add_packet sequence_id timestamp audio_data
  let a1 := { a with jitter_buffer := r.1 }
  let a2 :=
    if r.1.capacity ≤ r.1.buffer.length then
      { a1 with stats := { a1.stats with overruns := a1.stats.overruns + 1 } }
    else a1
  (a2, r.2)

/-- `AdaptiveJitterBuffer::get_next_packet`: delegate, update utilization
statistics, and count an underrun when nothing was returned although the
underlying buffer is non-empty. -/
def AdaptiveJitterBuffer.get_next_packet {α : Type} (a : AdaptiveJitterBuffer α) :
    AdaptiveJitterBuffer α × Option (JEntry α) :=
  let r := a.jitter_buffer.get_next_packet
  let a1 := { a with jitter_buffer := r.1 }
  let a2 :=
    if r.1.capacity ≤ r.1.buffer.length then
      { a1 with stats := { a1.stats with overruns := a1.stats.overruns + 1 } }
    else a1
  let a3 :=
    if r.2.isNone && !r.1.buffer.isEmpty then
      { a2 with stats := { a2.stats with underruns := a2.stats.underruns + 1 } }
    else a2
  (a3, r.2)

/-- The `while (!is_empty()) get_next_packet()` extraction loop of
`migrate_packets_to_new_buffer`, with the buffer length as fuel: a ready
buffer pops one entry per iteration, and a non-ready buffer is empty in
every reachable state. -/
def drainLoop {α : Type} : Nat → JitterBuffer α → List (JEntry α)
  | 0, _ => []
  | fuel + 1, b =>
    if b.buffer.isEmpty then []
    else
      match b.get_next_packet with
      | (b', some e) => e :: drainLoop fuel b'
      | (_, none) => []

/-- `AdaptiveJitterBuffer::migrate_packets_to_new_buffer`: extract all
stored entries in sequence order, create a fresh buffer with the new
capacity, and re-add them in order. -/
def AdaptiveJitterBuffer.migrate_packets_to_new_buffer {α : Type}
    (a : AdaptiveJitterBuffer α) (new_capacity : Nat) : JitterBuffer α :=
  let packets := drainLoop a.jitter_buffer.buffer.length a.jitter_buffer
  packets.foldl
    (fun nb e => (nb.add_packet e.sequence_id e.timestamp e.audio_data).1)
    (mkJitterBuffer α new_capacity a.frame_size a.channels)

/-- `AdaptiveJitterBuffer::apply_capacity_change`. -/
def AdaptiveJitterBuffer.apply_capacity_change {α : Type}
    (a : AdaptiveJitterBuffer α) (new_capacity : Nat) : AdaptiveJitterBuffer α :=
  if new_capacity = a.stats.current_capacity then a
  else
    let jb := a.migrate_packets_to_new_buffer new_capacity
    let stats1 :=
      if a.stats.current_capacity < new_capacity then
        { a.stats with capacity_increases := a.stats.capacity_increases + 1 }
      else
        { a.stats with capacity_decreases := a.stats.capacity_decreases + 1 }
    let stats2 := { stats1 with
      current_capacity := new_capacity
      adaptations_count := stats1.adaptations_count + 1 }
    let hist := a.capacity_history ++ [new_capacity]
    { a with
      jitter_buffer := jb
      stats := stats2
      capacity_history := if MAX_CAPACITY_HISTORY < hist.length then hist.tail else hist }

/-- `AdaptiveJitterBuffer::set_capacity`: bounds check, then the same
migration as the adaptive loop. -/
def AdaptiveJitterBuffer.set_capacity {α : Type} (a : AdaptiveJitterBuffer α)
    (capacity : Nat) : AdaptiveJitterBuffer α × Bool :=
  if capacity < a.config.min_capacity ∨ a.config.max_capacity < capacity then (a, false)
  else (a.apply_capacity_change capacity, true)

/-- Well-formedness of an adaptive-buffer state: the wrapped buffer is
well-formed and was created with the wrapper's frame parameters. -/
def AdaptiveJitterBuffer.wf {α : Type} (a : AdaptiveJitterBuffer α) : Prop :=
  a.jitter_buffer.wf ∧ a.jitter_buffer.frame_size = a.frame_size ∧
  a.jitter_buffer.channels = a.channels

instance {α : Type} (b : JitterBuffer α) : Decidable b.wf := by
  unfold JitterBuffer.wf
  infer_instance

instance {α : Type} (a : AdaptiveJitterBuffer α) : Decidable a.wf := by
  unfold AdaptiveJitterBuffer.wf
  infer_instance

def adaptiveDemo : AdaptiveJitterBuffer Unit :=
  (((mkAdaptiveJitterBuffer Unit 64 1
      { min_capacity := 1, max_capacity := 20, default_capacity := 2 }).add_packet 1 5
    (List.replicate 64 ())).1.add_packet 2 6 (List.replicate 64 ())).1

/-! Trace semantics for the adaptive buffer: admissions, retrievals and
capacity changes interleaved arbitrarily. -/

inductive JOp (α : Type) where
  | add (sequence_id timestamp : Nat) (audio_data : List α)
  | pop
  | setCap (capacity : Nat)
deriving DecidableEq

/-- Run a trace of operations, collecting the entries returned by the
retrievals in order. -/
def runOps {α : Type} (a : AdaptiveJitterBuffer α) :
    List (JOp α) → AdaptiveJitterBuffer α × List (JEntry α)
  | [] => (a, [])
  | JOp.add sid ts data :: rest => runOps (a.add_packet sid ts data).1 rest
  | JOp.pop :: rest =>
    let r := a.get_next_packet
    let t := runOps r.1 rest
    (t.1, r.2.toList ++ t.2)
  | JOp.setCap c :: rest => runOps (a.set_capacity c).1 rest

/-- Every admission's sequence id exceeds the most recently retrieved one
(`m` tracks the last retrieved id; retrievals are ascending, so it is the
maximum of all of them). -/
def freshAdds {α : Type} (a : AdaptiveJitterBuffer α) (m : Option Nat) :
    List (JOp α) → Bool
  | [] => true
  | JOp.add sid ts data :: rest =>
    (match m with
     | none => true
     | some k => decide (k < sid)) && freshAdds (a.add_packet sid ts data).1 m rest
  | JOp.pop :: rest =>
    let r := a.get_next_packet
    freshAdds r.1 (match r.2 with | some e => some e.sequence_id | none => m) rest
  | JOp.setCap c :: rest => freshAdds (a.set_capacity c).1 m rest

theorem le32_bytes (x : Nat) (hx : x < 2 ^ 32) :
    byte x 0 + byte x 1 * 2 ^ 8 + byte x 2 * 2 ^ 16 + byte x 3 * 2 ^ 24 = x := by
  simp only [byte]
  norm_num
  omega

theorem le64_bytes (x : Nat) (hx : x < 2 ^ 64) :
    byte x 0 + byte x 1 * 2 ^ 8 + byte x 2 * 2 ^ 16 + byte x 3 * 2 ^ 24 +
    byte x 4 * 2 ^ 32 + byte x 5 * 2 ^ 40 + byte x 6 * 2 ^ 48 + byte x 7 * 2 ^ 56 = x := by
  simp only [byte]
  norm_num
  omega

/-- C1: for every audio packet `p` satisfying the invariant
`payload_size == length(payload)` (with the payload within the parser's
accepted size, and the integer fields within their C++ types),
`AudioPacket::deserialize (AudioPacket::serialize p)` returns a packet equal
to `p` in all fields. -/
theorem deserialize_serialize (p : AudioPacket)
    (hinv : p.payload_size = p.payload.length)
    (hsz : p.payload_size ≤ 65536)
    (hseq : p.sequence_id < 2 ^ 32)
    (hts : p.timestamp < 2 ^ 64) :
    AudioPacket.deserialize p.serialize = some p := by
  obtain ⟨seq, ts, psz, payload⟩ := p
  simp only at hinv hsz hseq hts
  subst hinv
  have hlen : (AudioPacket.serialize ⟨seq, ts, payload.length, payload⟩).length
      = 16 + payload.length := by
    simp [AudioPacket.serialize]
    omega
  have hseq' : le32 (AudioPacket.serialize ⟨seq, ts, payload.length, payload⟩) 0 = seq := by
    show byte seq 0 + byte seq 1 * 2 ^ 8 + byte seq 2 * 2 ^ 16 + byte seq 3 * 2 ^ 24 = seq
    exact le32_bytes seq hseq
  have hts' : le64 (AudioPacket.serialize ⟨seq, ts, payload.length, payload⟩) 4 = ts := by
    show byte ts 0 + byte ts 1 * 2 ^ 8 + byte ts 2 * 2 ^ 16 + byte ts 3 * 2 ^ 24 +
      byte ts 4 * 2 ^ 32 + byte ts 5 * 2 ^ 40 + byte ts 6 * 2 ^ 48 + byte ts 7 * 2 ^ 56 = ts
    exact le64_bytes ts hts
  have hpsz' : le32 (AudioPacket.serialize ⟨seq, ts, payload.length, payload⟩) 12
      = payload.length := by
    show byte payload.length 0 + byte payload.length 1 * 2 ^ 8 +
      byte payload.length 2 * 2 ^ 16 + byte payload.length 3 * 2 ^ 24 = payload.length
    exact le32_bytes payload.length (by omega)
  have hdrop : (AudioPacket.serialize ⟨seq, ts, payload.length, payload⟩).drop 16 = payload := by
    show List.drop 16 (_ ++ payload) = payload
    rfl
  unfold AudioPacket.deserialize
  rw [hlen, hseq', hts', hpsz', hdrop]
  rw [if_neg (by omega), if_neg (by omega), if_pos]
  · simp
  · constructor
    · simp
    · simpa using hsz

theorem deserialize_serialize_witness :
    (4 : Nat) = [1, 2, 3, 4].length ∧ (4 : Nat) ≤ 65536 ∧
    (123 : Nat) < 2 ^ 32 ∧ (456789 : Nat) < 2 ^ 64 ∧
    AudioPacket.deserialize (AudioPacket.serialize ⟨123, 456789, 4, [1, 2, 3, 4]⟩)
      = some ⟨123, 456789, 4, [1, 2, 3, 4]⟩ :=
  ⟨by decide, by decide, by decide, by decide,
   deserialize_serialize ⟨123, 456789, 4, [1, 2, 3, 4]⟩
     (by decide) (by decide) (by decide) (by decide)⟩

/-- C8: audio-datagram deserialisation returns no packet whenever the input
is shorter than 16 bytes, or the parsed `payload_size` field exceeds the
number of input bytes available for the payload. -/
theorem deserialize_malformed (data : List Nat)
    (h : data.length < 16 ∨ data.length - 16 < le32 data 12) :
    AudioPacket.deserialize data = none := by
  unfold AudioPacket.deserialize
  by_cases h16 : data.length < 16
  · rw [if_pos h16]
  · have hlt : data.length < 16 + le32 data 12 := by omega
    rw [if_neg h16]
    by_cases hwrap : data.length < (16 + le32 data 12) % 2 ^ 32
    · rw [if_pos hwrap]
    · -- the 32-bit guard wrapped, so payload_size ≥ 2^32 − 16 and
      -- is_valid rejects the oversized payload_size
      have hbig : 65536 < le32 data 12 := by omega
      rw [if_neg hwrap, if_neg]
      intro hv
      have h2 := hv.2
      simp only at h2
      omega

theorem deserialize_malformed_witness :
    (([] : List Nat).length < 16 ∨ ([] : List Nat).length - 16 < le32 [] 12) ∧
    AudioPacket.deserialize [] = none :=
  ⟨Or.inl (by decide), deserialize_malformed [] (Or.inl (by decide))⟩

/-- C9: for every input holding a full header and at least `payload_size`
payload bytes, `AudioPacket::deserialize` succeeds if and only if the
parsed `payload_size` is at most 65536 — in particular payloads between
1501 and 65536 bytes are accepted. -/
theorem deserialize_succeeds_iff (data : List Nat)
    (h : 16 + le32 data 12 ≤ data.length) :
    (AudioPacket.deserialize data).isSome ↔ le32 data 12 ≤ 65536 := by
  unfold AudioPacket.deserialize
  rw [if_neg (by omega), if_neg (by omega)]
  by_cases hv : le32 data 12 ≤ 65536
  · rw [if_pos]
    · simp [hv]
    · refine ⟨?_, hv⟩
      simp only [List.length_append, List.length_take, List.length_drop,
        List.length_replicate]
      omega
  · rw [if_neg]
    · simp [hv]
    · intro hvalid
      have h2 := hvalid.2
      simp only at h2
      exact hv h2

theorem deserialize_succeeds_iff_witness :
    16 + le32 oversizedDatagram 12 ≤ oversizedDatagram.length ∧
    ((AudioPacket.deserialize oversizedDatagram).isSome ↔ le32 oversizedDatagram 12 ≤ 65536) := by
  have hpsz : le32 oversizedDatagram 12 = 1501 := rfl
  have hlen : oversizedDatagram.length = 1517 := by
    unfold oversizedDatagram
    rw [List.length_append, List.length_replicate]
    rfl
  exact ⟨by rw [hpsz, hlen], deserialize_succeeds_iff oversizedDatagram (by rw [hpsz, hlen])⟩

/-- C10: `FECHeader::deserialize` is total and never signals an error: every
input shorter than 13 bytes yields the default header with all fields zero,
indistinguishable at this interface from a validly parsed all-zero header. -/
theorem fec_deserialize_short (data : List Nat) (h : data.length < 13) :
    FECHeader.deserialize data = ⟨0, 0, 0, 0, 0, 0⟩ := by
  rw [FECHeader.deserialize, if_pos]
  exact h

theorem fec_deserialize_short_witness :
    ([1, 2, 3] : List Nat).length < 13 ∧
    FECHeader.deserialize [1, 2, 3] = ⟨0, 0, 0, 0, 0, 0⟩ ∧
    FECHeader.deserialize (List.replicate 13 0) = ⟨0, 0, 0, 0, 0, 0⟩ :=
  ⟨by decide, fec_deserialize_short [1, 2, 3] (by decide), by decide⟩

/-- C6 (counterexample): on a 13-byte input whose first byte is 0x03, FEC
deserialisation silently produces a header carrying `packet_type = 3`
(there is no malformed-packet failure), and `process_packet` returns the
default unsuccessful result, the same value a stored redundant packet
would produce. -/
theorem fec_unknown_type_counterexample :
    FECHeader.deserialize (3 :: List.replicate 12 0) =
      { packet_type := 3, sequence_id := 0, redundant_sequence_id := 0,
        redundant_data_size := 0, redundancy_level := 0, reserved := 0 } ∧
    ((mkFECDecoder 5 20).process_packet (3 :: List.replicate 12 0) 0).2 =
      ({} : FECRecoveryResult) := by
  constructor <;> rfl

/-- C6 (amended): for every input of at least 13 bytes whose first byte is
neither PRIMARY (0x01) nor REDUNDANT (0x02), FEC deserialisation silently
returns a header carrying that byte as `packet_type` — no `MalformedPacket`
error exists — and `process_packet` reports no success and stores no new
packet (its maps only lose entries to cleanup). -/
theorem process_packet_unknown_type (d : FECDecoder) (data : List Nat) (now : Nat)
    (hlen : 13 ≤ data.length)
    (hp : data.getD 0 0 ≠ FEC_PRIMARY) (hr : data.getD 0 0 ≠ FEC_REDUNDANT) :
    (FECHeader.deserialize data).packet_type = data.getD 0 0 ∧
    (d.process_packet data now).2.success = false ∧
    (∀ kv, kv ∈ (d.process_packet data now).1.primary_packets →
      kv ∈ d.primary_packets) ∧
    (∀ kv, kv ∈ (d.process_packet data now).1.redundant_packets →
      kv ∈ d.redundant_packets) := by
  have hdr : FECHeader.deserialize data =
      ⟨data.getD 0 0, le32 data 1, le32 data 5, le16 data 9,
       data.getD 11 0, data.getD 12 0⟩ := by
    rw [FECHeader.deserialize, if_neg]
    simp [FECHeader.HEADER_SIZE]
    omega
  have hproc : d.process_packet data now =
      (d.cleanup_expired_packets (le32 data 1) now, {}) := by
    rw [FECDecoder.process_packet, if_neg (by simp [FECHeader.HEADER_SIZE]; omega)]
    simp only [hdr]
    rw [if_neg hp, if_neg hr]
  refine ⟨by rw [hdr], by rw [hproc], ?_, ?_⟩
  · intro kv hkv
    rw [hproc] at hkv
    exact (List.mem_filter.mp hkv).1
  · intro kv hkv
    rw [hproc] at hkv
    exact (List.mem_filter.mp hkv).1

theorem process_packet_unknown_type_witness :
    13 ≤ ((7 : Nat) :: List.replicate 14 0).length ∧
    ((7 : Nat) :: List.replicate 14 0).getD 0 0 ≠ FEC_PRIMARY ∧
    ((7 : Nat) :: List.replicate 14 0).getD 0 0 ≠ FEC_REDUNDANT ∧
    ((FECHeader.deserialize (7 :: List.replicate 14 0)).packet_type
        = ((7 : Nat) :: List.replicate 14 0).getD 0 0 ∧
      ((mkFECDecoder 5 20).process_packet (7 :: List.replicate 14 0) 3).2.success = false ∧
      (∀ kv, kv ∈ ((mkFECDecoder 5 20).process_packet (7 :: List.replicate 14 0) 3).1.primary_packets →
        kv ∈ (mkFECDecoder 5 20).primary_packets) ∧
      (∀ kv, kv ∈ ((mkFECDecoder 5 20).process_packet (7 :: List.replicate 14 0) 3).1.redundant_packets →
        kv ∈ (mkFECDecoder 5 20).redundant_packets)) :=
  ⟨by decide, by decide, by decide,
   process_packet_unknown_type (mkFECDecoder 5 20) (7 :: List.replicate 14 0) 3
     (by decide) (by decide) (by decide)⟩

/-- C4: `recover_packet(sid)` returns the stored PRIMARY payload for `sid`
when one is present (`was_recovered_from_redundancy = false`, redundancy
untouched); otherwise the first stored REDUNDANT copy for `sid` if any
(`was_recovered_from_redundancy = true`); otherwise it reports failure. -/
theorem recover_packet_spec (d : FECDecoder) (sid now : Nat) :
    (∀ sp, d.primary_packets.lookup sid = some sp →
      (d.recover_packet sid now).2 =
        { success := true, sequence_id := sid, recovered_data := sp.data,
          was_recovered_from_redundancy := false } ∧
      (d.recover_packet sid now).1.redundant_packets = d.redundant_packets) ∧
    (∀ rp l, d.primary_packets.lookup sid = none →
      (d.redundant_packets.lookup sid).getD [] = rp :: l →
      (d.recover_packet sid now).2.success = true ∧
      (d.recover_packet sid now).2.recovered_data = rp.data ∧
      (d.recover_packet sid now).2.was_recovered_from_redundancy = true ∧
      (d.recover_packet sid now).1.redundant_packets = d.redundant_packets) ∧
    (d.primary_packets.lookup sid = none →
      (d.redundant_packets.lookup sid).getD [] = [] →
      (d.recover_packet sid now).2.success = false) := by
  refine ⟨?_, ?_, ?_⟩
  · intro sp hsp
    rw [FECDecoder.recover_packet]
    simp only [hsp]
    simp
  · intro rp l hnone hred
    rw [FECDecoder.recover_packet]
    simp only [hnone, FECDecoder.try_recover_from_redundancy, hred,
      FECDecoder.update_recovery_stats]
    simp
    split <;> first | rfl | (split <;> rfl)
  · intro hnone hred
    rw [FECDecoder.recover_packet]
    simp only [hnone, FECDecoder.try_recover_from_redundancy, hred,
      FECDecoder.update_recovery_stats]

theorem recover_packet_spec_witness :
    (primaryDemoDecoder.primary_packets.lookup 7
        = some ⟨7, [9, 9], 1, 0, 100, true⟩ ∧
      (primaryDemoDecoder.recover_packet 7 100).2 =
        { success := true, sequence_id := 7, recovered_data := [9, 9],
          was_recovered_from_redundancy := false }) ∧
    (redundantDemoDecoder.primary_packets.lookup 7 = none ∧
      (redundantDemoDecoder.recover_packet 7 101).2.success = true ∧
      (redundantDemoDecoder.recover_packet 7 101).2.recovered_data = [4, 5] ∧
      (redundantDemoDecoder.recover_packet 7 101).2.was_recovered_from_redundancy = true) :=
  ⟨⟨by decide,
    (((recover_packet_spec primaryDemoDecoder 7 100).1
      ⟨7, [9, 9], 1, 0, 100, true⟩ (by decide)).1)⟩,
   ⟨by decide,
    by
      have h := ((recover_packet_spec redundantDemoDecoder 7 101).2.1
        ⟨8, [4, 5], 2, 7, 100, false⟩ [] (by decide) (by decide))
      exact ⟨h.1, h.2.1, h.2.2.1⟩⟩⟩

theorem getD_map_range {β : Type} (f : Nat → β) (k i : Nat) (d : β) (h : i < k) :
    ((List.range k).map f).getD i d = f i := by
  rw [List.getD_eq_getElem?_getD, List.getElem?_map, List.getElem?_range h]
  rfl

theorem getD_dropLast_reverse {β : Type} (l : List β) (d : β) (i : Nat)
    (h : i < l.length - 1) :
    l.dropLast.reverse.getD i d = l.getD (l.length - 2 - i) d := by
  have hlen : l.dropLast.length = l.length - 1 := List.length_dropLast l
  rw [List.getD_eq_getElem?_getD, List.getD_eq_getElem?_getD,
    List.getElem?_reverse (by rw [hlen]; omega), hlen, List.dropLast_eq_take,
    List.getElem?_take_of_lt (by omega)]
  congr 2

/-- C5: for every encoder state with window size W and redundancy ρ ≥ 0,
`encode_packet(sequence_id, payload)` emits, after the PRIMARY packet,
exactly k = min(⌈ρ/100·W⌉, |window|−1, max_recovery_distance) REDUNDANT
packets, the i-th carrying `sequence_id` as its carrier id, the i-th most
recent prior window entry's sequence id as `redundant_sequence_id`, and
that entry's payload. -/
theorem encode_packet_spec (e : FECEncoder) (sequence_id now : Nat)
    (audio_data : List Nat) (hra : 0 ≤ e.config.redundancy_percentage) :
    (e.encode_packet sequence_id audio_data now).2.length =
      1 + min (min ⌈e.config.redundancy_percentage / 100 * (e.config.window_size : ℚ)⌉₊
        ((e.update_packet_window sequence_id audio_data now).length - 1))
        e.config.max_recovery_distance ∧
    (e.encode_packet sequence_id audio_data now).2.getD 0 [] =
      e.create_primary_packet sequence_id audio_data ∧
    ∀ i, i < min (min ⌈e.config.redundancy_percentage / 100 * (e.config.window_size : ℚ)⌉₊
        ((e.update_packet_window sequence_id audio_data now).length - 1))
        e.config.max_recovery_distance →
      (e.encode_packet sequence_id audio_data now).2.getD (i + 1) [] =
        FECHeader.serialize
          ⟨FEC_REDUNDANT, sequence_id,
           ((e.update_packet_window sequence_id audio_data now).dropLast.reverse.getD i
             ⟨0, [], 0⟩).sequence_id,
           ((e.update_packet_window sequence_id audio_data now).dropLast.reverse.getD i
             ⟨0, [], 0⟩).data.length % 2 ^ 16,
           ⌊e.config.redundancy_percentage⌋₊ % 256, 0⟩
        ++ ((e.update_packet_window sequence_id audio_data now).dropLast.reverse.getD i
             ⟨0, [], 0⟩).data := by
  have hpk : (e.encode_packet sequence_id audio_data now).2 =
      if 1 < (e.update_packet_window sequence_id audio_data now).length then
        e.create_primary_packet sequence_id audio_data ::
          FECEncoder.generate_redundant_packets
            { e with packet_window := e.update_packet_window sequence_id audio_data now }
            sequence_id
      else [e.create_primary_packet sequence_id audio_data] := rfl
  rw [hpk]
  set w' := e.update_packet_window sequence_id audio_data now with hw'
  by_cases hlen : 1 < w'.length
  · rw [if_pos hlen]
    by_cases hr0 : e.config.redundancy_percentage ≤ 0
    · have hz : e.config.redundancy_percentage = 0 := le_antisymm hr0 hra
      have hC : ⌈e.config.redundancy_percentage / 100 * (e.config.window_size : ℚ)⌉₊ = 0 := by
        rw [hz]
        simp
      have hgen : FECEncoder.generate_redundant_packets
          { e with packet_window := w' } sequence_id = [] := by
        rw [FECEncoder.generate_redundant_packets,
          FECEncoder.calculate_redundant_packet_count]
        rw [if_pos]
        · simp
        · exact hr0
      rw [hgen, hC]
      refine ⟨by simp only [List.length_singleton]; omega, rfl, ?_⟩
      intro i hi
      exact absurd hi (by omega)
    · have hcnt : FECEncoder.calculate_redundant_packet_count
          { e with packet_window := w' } =
          min (min ⌈e.config.redundancy_percentage / 100 * (e.config.window_size : ℚ)⌉₊
            (w'.length - 1)) e.config.max_recovery_distance := by
        rw [FECEncoder.calculate_redundant_packet_count, if_neg hr0]
      refine ⟨?_, rfl, ?_⟩
      · rw [List.length_cons, FECEncoder.generate_redundant_packets, hcnt,
          List.length_map, List.length_range]
        simp only []
        omega
      · intro i hi
        rw [List.getD_cons_succ, FECEncoder.generate_redundant_packets, hcnt,
          getD_map_range _ _ _ _ (by simp only []; omega),
          getD_dropLast_reverse _ _ i (by omega)]
  · rw [if_neg hlen]
    refine ⟨by simp only [List.length_singleton]; omega, rfl, ?_⟩
    intro i hi
    exact absurd hi (by omega)

theorem encode_packet_spec_witness :
    0 ≤ fecEncoderDemo.config.redundancy_percentage ∧
    (fecEncoderDemo.encode_packet 3 [30] 0).2.length =
      1 + min (min ⌈fecEncoderDemo.config.redundancy_percentage / 100 *
        (fecEncoderDemo.config.window_size : ℚ)⌉₊
        ((fecEncoderDemo.update_packet_window 3 [30] 0).length - 1))
        fecEncoderDemo.config.max_recovery_distance :=
  ⟨by decide, (encode_packet_spec fecEncoderDemo 3 0 [30] (by decide)).1⟩

/-- C7 (counterexample): recording one sent packet and two received packets
(more received than sent) underflows the `uint64` subtraction, and the
derived loss rate is (2^64 − 1)·100, far outside [0, 100]. -/
theorem packet_loss_rate_counterexample :
    100 < (NetworkMonitorState.run {}
      [.packet_sent 1 10, .packet_received 1 10, .packet_received 2 10]).packet_loss_rate := by
  norm_num [NetworkMonitorState.run, NetworkMonitorState.record_event,
    NetworkMonitorState.packet_loss_rate]

theorem run_counters_lt (events : List MonitorEvent) (s : NetworkMonitorState)
    (hs : s.packets_sent < 2 ^ 64) (hr : s.packets_received < 2 ^ 64) :
    (s.run events).packets_sent < 2 ^ 64 ∧ (s.run events).packets_received < 2 ^ 64 := by
  induction events generalizing s with
  | nil => exact ⟨hs, hr⟩
  | cons ev rest ih =>
    cases ev with
    | packet_sent sid b =>
      exact ih _ (by simp [NetworkMonitorState.record_event]; omega) (by simpa [NetworkMonitorState.record_event] using hr)
    | packet_received sid b =>
      exact ih _ (by simpa [NetworkMonitorState.record_event] using hs) (by simp [NetworkMonitorState.record_event]; omega)
    | rtt_sample r =>
      exact ih _ (by simpa [NetworkMonitorState.record_event] using hs) (by simpa [NetworkMonitorState.record_event] using hr)

/-- C7 (amended): for every finite monitor event stream in which at most as
many packets were received as sent, the derived loss rate lies in
[0, 100]; when received exceeds sent the unsigned subtraction wraps and
the rate exceeds 100. -/
theorem packet_loss_rate_bounds (events : List MonitorEvent)
    (h : (NetworkMonitorState.run {} events).packets_received ≤
      (NetworkMonitorState.run {} events).packets_sent) :
    0 ≤ (NetworkMonitorState.run {} events).packet_loss_rate ∧
    (NetworkMonitorState.run {} events).packet_loss_rate ≤ 100 := by
  obtain ⟨hs, hr⟩ := run_counters_lt events {} (by norm_num) (by norm_num)
  set t := NetworkMonitorState.run {} events with ht
  rw [NetworkMonitorState.packet_loss_rate]
  by_cases h0 : t.packets_sent = 0
  · simp [h0]
  · rw [if_neg h0]
    have hlost : (t.packets_sent + 2 ^ 64 - t.packets_received) % 2 ^ 64 =
        t.packets_sent - t.packets_received := by omega
    rw [hlost]
    have hspos : (0 : ℚ) < (t.packets_sent : ℚ) := by
      exact_mod_cast Nat.pos_of_ne_zero h0
    constructor
    · positivity
    · have hd : ((t.packets_sent - t.packets_received : Nat) : ℚ) ≤ (t.packets_sent : ℚ) := by
        exact_mod_cast Nat.sub_le _ _
      have hdiv : ((t.packets_sent - t.packets_received : Nat) : ℚ) / (t.packets_sent : ℚ) ≤ 1 :=
        (div_le_one hspos).mpr hd
      calc ((t.packets_sent - t.packets_received : Nat) : ℚ) / (t.packets_sent : ℚ) * 100
          ≤ 1 * 100 := by
            exact mul_le_mul_of_nonneg_right hdiv (by norm_num)
        _ = 100 := by norm_num

theorem packet_loss_rate_bounds_witness :
    (NetworkMonitorState.run {}
        [.packet_sent 1 10, .packet_sent 2 10, .packet_received 1 10]).packets_received ≤
      (NetworkMonitorState.run {}
        [.packet_sent 1 10, .packet_sent 2 10, .packet_received 1 10]).packets_sent ∧
    (0 ≤ (NetworkMonitorState.run {}
        [.packet_sent 1 10, .packet_sent 2 10, .packet_received 1 10]).packet_loss_rate ∧
      (NetworkMonitorState.run {}
        [.packet_sent 1 10, .packet_sent 2 10, .packet_received 1 10]).packet_loss_rate ≤ 100) :=
  ⟨by decide, packet_loss_rate_bounds
    [.packet_sent 1 10, .packet_sent 2 10, .packet_received 1 10] (by decide)⟩

theorem insertEntry_append {α : Type} (e : JEntry α) (l : List (JEntry α))
    (h : ∀ x ∈ l, x.sequence_id < e.sequence_id) :
    insertEntry e l = l ++ [e] := by
  induction l with
  | nil => rfl
  | cons x xs ih =>
    rw [insertEntry, if_neg (by have := h x (List.mem_cons_self x xs); omega),
      ih (fun y hy => h y (List.mem_cons_of_mem x hy))]
    rfl

theorem mem_insertEntry {α : Type} (e : JEntry α) (l : List (JEntry α)) (x : JEntry α)
    (hx : x ∈ insertEntry e l) : x = e ∨ x ∈ l := by
  induction l with
  | nil =>
    rw [insertEntry] at hx
    simp at hx
    exact Or.inl hx
  | cons y ys ih =>
    rw [insertEntry] at hx
    by_cases hlt : e.sequence_id < y.sequence_id
    · rw [if_pos hlt] at hx
      rcases List.mem_cons.mp hx with h1 | h2
      · exact Or.inl h1
      · exact Or.inr h2
    · rw [if_neg hlt] at hx
      rcases List.mem_cons.mp hx with h1 | h2
      · exact Or.inr (h1 ▸ List.mem_cons_self y ys)
      · rcases ih h2 with h3 | h4
        · exact Or.inl h3
        · exact Or.inr (List.mem_cons_of_mem y h4)

theorem length_insertEntry {α : Type} (e : JEntry α) (l : List (JEntry α)) :
    (insertEntry e l).length = l.length + 1 := by
  induction l with
  | nil => rfl
  | cons x xs ih =>
    rw [insertEntry]
    split
    · simp
    · simp [ih]

theorem pairwise_insertEntry {α : Type} (e : JEntry α) (l : List (JEntry α))
    (hs : l.Pairwise (fun x y => x.sequence_id < y.sequence_id))
    (hne : ∀ x ∈ l, x.sequence_id ≠ e.sequence_id) :
    (insertEntry e l).Pairwise (fun x y => x.sequence_id < y.sequence_id) := by
  induction l with
  | nil => simp [insertEntry]
  | cons x xs ih =>
    rw [List.pairwise_cons] at hs
    rw [insertEntry]
    by_cases hlt : e.sequence_id < x.sequence_id
    · rw [if_pos hlt]
      refine List.Pairwise.cons ?_ (List.Pairwise.cons hs.1 hs.2)
      intro y hy
      rcases List.mem_cons.mp hy with rfl | h2
      · exact hlt
      · have := hs.1 y h2
        omega
    · rw [if_neg hlt]
      refine List.Pairwise.cons ?_ (ih hs.2 (fun y hy => hne y (List.mem_cons_of_mem x hy)))
      intro y hy
      rcases mem_insertEntry e xs y hy with rfl | h2
      · have := hne x (List.mem_cons_self x xs)
        omega
      · exact hs.1 y h2

theorem update_jitter_stats_core {α : Type} (b : JitterBuffer α) (ts : Nat) :
    (b.update_jitter_stats ts).buffer = b.buffer ∧
    (b.update_jitter_stats ts).capacity = b.capacity ∧
    (b.update_jitter_stats ts).frame_size = b.frame_size ∧
    (b.update_jitter_stats ts).channels = b.channels ∧
    (b.update_jitter_stats ts).ready = b.ready := by
  rw [JitterBuffer.update_jitter_stats]
  split <;> exact ⟨rfl, rfl, rfl, rfl, rfl⟩

theorem wf_of_fields_eq {α : Type} (b b' : JitterBuffer α)
    (h1 : b'.buffer = b.buffer) (h2 : b'.capacity = b.capacity)
    (h3 : b'.frame_size = b.frame_size) (h4 : b'.channels = b.channels)
    (h5 : b'.ready = b.ready) (hwf : b.wf) : b'.wf := by
  rw [JitterBuffer.wf, h1, h2, h3, h4, h5]
  exact hwf

theorem gap_step_core {α : Type} (b : JitterBuffer α) (sid : Nat) :
    (b.gap_step sid).buffer = b.buffer ∧
    (b.gap_step sid).capacity = b.capacity ∧
    (b.gap_step sid).frame_size = b.frame_size ∧
    (b.gap_step sid).channels = b.channels ∧
    (b.gap_step sid).ready = b.ready := by
  rw [JitterBuffer.gap_step]
  split <;> exact ⟨rfl, rfl, rfl, rfl, rfl⟩

theorem drop_oldest_core {α : Type} (b : JitterBuffer α) :
    b.drop_oldest_packet.buffer = b.buffer.tail ∧
    b.drop_oldest_packet.capacity = b.capacity ∧
    b.drop_oldest_packet.frame_size = b.frame_size ∧
    b.drop_oldest_packet.channels = b.channels ∧
    b.drop_oldest_packet.ready = b.ready := by
  rw [JitterBuffer.drop_oldest_packet]
  split
  · rename_i h
    rw [List.isEmpty_iff.mp h]
    exact ⟨rfl, rfl, rfl, rfl, rfl⟩
  · exact ⟨rfl, rfl, rfl, rfl, rfl⟩

/-- On the successful path, `add_packet` inserts the new entry into the
buffer (after evicting the smallest key when at capacity) and leaves the
configuration fields unchanged. -/
theorem add_packet_state {α : Type} (b : JitterBuffer α) (sid ts : Nat) (data : List α)
    (hready : b.ready = true) (hdata : data.length = b.frame_size * b.channels)
    (hdup : (b.buffer.any fun e => e.sequence_id == sid) = false) :
    (b.add_packet sid ts data).1.buffer =
      insertEntry ⟨sid, ts, data⟩
        (if b.capacity ≤ b.buffer.length then b.buffer.tail else b.buffer) ∧
    (b.add_packet sid ts data).1.capacity = b.capacity ∧
    (b.add_packet sid ts data).1.frame_size = b.frame_size ∧
    (b.add_packet sid ts data).1.channels = b.channels ∧
    (b.add_packet sid ts data).1.ready = b.ready ∧
    (b.add_packet sid ts data).2 = true := by
  rw [JitterBuffer.add_packet, if_neg (by simp [hready]), if_neg (by simp [hdata]),
    if_neg (by simp [hdup])]
  obtain ⟨g1, g2, g3, g4, g5⟩ := gap_step_core
    (((if b.capacity ≤ b.buffer.length then b.drop_oldest_packet else b).insert_step
      sid ts data).update_jitter_stats ts) sid
  obtain ⟨u1, u2, u3, u4, u5⟩ := update_jitter_stats_core
    ((if b.capacity ≤ b.buffer.length then b.drop_oldest_packet else b).insert_step
      sid ts data) ts
  obtain ⟨d1, d2, d3, d4, d5⟩ := drop_oldest_core b
  by_cases hfull : b.capacity ≤ b.buffer.length
  · rw [if_pos hfull] at g1 g2 g3 g4 g5 u1 u2 u3 u4 u5
    refine ⟨?_, ?_, ?_, ?_, ?_, rfl⟩
    · rw [if_pos hfull, g1, u1, JitterBuffer.insert_step, d1, if_pos hfull]
    · rw [if_pos hfull, g2, u2, JitterBuffer.insert_step]
      exact d2
    · rw [if_pos hfull, g3, u3, JitterBuffer.insert_step]
      exact d3
    · rw [if_pos hfull, g4, u4, JitterBuffer.insert_step]
      exact d4
    · rw [if_pos hfull, g5, u5, JitterBuffer.insert_step]
      exact d5
  · rw [if_neg hfull] at g1 g2 g3 g4 g5 u1 u2 u3 u4 u5
    exact ⟨by rw [if_neg hfull, g1, u1, JitterBuffer.insert_step, if_neg hfull],
      by rw [if_neg hfull, g2, u2, JitterBuffer.insert_step],
      by rw [if_neg hfull, g3, u3, JitterBuffer.insert_step],
      by rw [if_neg hfull, g4, u4, JitterBuffer.insert_step],
      by rw [if_neg hfull, g5, u5, JitterBuffer.insert_step], rfl⟩

/-- On every rejecting path `add_packet` leaves the buffer untouched. -/
theorem add_packet_reject {α : Type} (b : JitterBuffer α) (sid ts : Nat) (data : List α)
    (h : ¬ (b.ready = true ∧ data.length = b.frame_size * b.channels ∧
      (b.buffer.any fun e => e.sequence_id == sid) = false)) :
    (b.add_packet sid ts data).1.buffer = b.buffer ∧
    (b.add_packet sid ts data).1.capacity = b.capacity ∧
    (b.add_packet sid ts data).1.frame_size = b.frame_size ∧
    (b.add_packet sid ts data).1.channels = b.channels ∧
    (b.add_packet sid ts data).1.ready = b.ready ∧
    (b.add_packet sid ts data).2 = false := by
  by_cases h1 : b.ready
  · by_cases h2 : data.length = b.frame_size * b.channels
    · by_cases h3 : (b.buffer.any fun e => e.sequence_id == sid) = true
      · rw [JitterBuffer.add_packet, if_neg (by simp [h1]), if_neg (by simp [h2]),
          if_pos (by simp [h3])]
        exact ⟨rfl, rfl, rfl, rfl, rfl, rfl⟩
      · exact absurd ⟨h1, h2, by simpa using h3⟩ h
    · rw [JitterBuffer.add_packet, if_neg (by simp [h1]), if_pos (by simp [h2])]
      exact ⟨rfl, rfl, rfl, rfl, rfl, rfl⟩
  · rw [JitterBuffer.add_packet, if_pos (by simp [h1])]
    exact ⟨rfl, rfl, rfl, rfl, rfl, rfl⟩

theorem add_packet_fields {α : Type} (b : JitterBuffer α) (sid ts : Nat) (data : List α) :
    (b.add_packet sid ts data).1.capacity = b.capacity ∧
    (b.add_packet sid ts data).1.frame_size = b.frame_size ∧
    (b.add_packet sid ts data).1.channels = b.channels ∧
    (b.add_packet sid ts data).1.ready = b.ready := by
  by_cases h : b.ready = true ∧ data.length = b.frame_size * b.channels ∧
      (b.buffer.any fun e => e.sequence_id == sid) = false
  · obtain ⟨_, c2, c3, c4, c5, _⟩ := add_packet_state b sid ts data h.1 h.2.1 h.2.2
    exact ⟨c2, c3, c4, c5⟩
  · obtain ⟨_, c2, c3, c4, c5, _⟩ := add_packet_reject b sid ts data h
    exact ⟨c2, c3, c4, c5⟩

/-- Every entry in the buffer after `add_packet` is either an old entry or
the newly admitted one. -/
theorem add_packet_mem {α : Type} (b : JitterBuffer α) (sid ts : Nat) (data : List α)
    (x : JEntry α) (hx : x ∈ (b.add_packet sid ts data).1.buffer) :
    x ∈ b.buffer ∨ x = ⟨sid, ts, data⟩ := by
  by_cases h : b.ready = true ∧ data.length = b.frame_size * b.channels ∧
      (b.buffer.any fun e => e.sequence_id == sid) = false
  · obtain ⟨c1, _, _, _, _, _⟩ := add_packet_state b sid ts data h.1 h.2.1 h.2.2
    rw [c1] at hx
    rcases mem_insertEntry _ _ _ hx with h1 | h2
    · exact Or.inr h1
    · left
      by_cases hfull : b.capacity ≤ b.buffer.length
      · rw [if_pos hfull] at h2
        exact List.tail_subset _ h2
      · rwa [if_neg hfull] at h2
  · obtain ⟨c1, _, _, _, _, _⟩ := add_packet_reject b sid ts data h
    rw [c1] at hx
    exact Or.inl hx

theorem add_packet_wf {α : Type} (b : JitterBuffer α) (sid ts : Nat) (data : List α)
    (hwf : b.wf) : (b.add_packet sid ts data).1.wf := by
  obtain ⟨hsort, hlen, hframes, hbounds⟩ := hwf
  by_cases h : b.ready = true ∧ data.length = b.frame_size * b.channels ∧
      (b.buffer.any fun e => e.sequence_id == sid) = false
  · obtain ⟨hready, hdata, hdup⟩ := h
    obtain ⟨c1, c2, c3, c4, c5, _⟩ := add_packet_state b sid ts data hready hdata hdup
    have hcap1 : 1 ≤ b.capacity := (hbounds hready).1
    have hne : ∀ x ∈ b.buffer, x.sequence_id ≠ sid := by
      intro x hxmem
      have := List.any_eq_false.mp hdup x hxmem
      simpa using this
    rw [JitterBuffer.wf, c1, c2, c3, c4, c5]
    by_cases hfull : b.capacity ≤ b.buffer.length
    · rw [if_pos hfull]
      refine ⟨?_, ?_, ?_, fun hr => hbounds hr⟩
      · exact pairwise_insertEntry _ _ (hsort.sublist (List.tail_sublist _))
          (fun x hxm => hne x (List.tail_subset _ hxm))
      · rw [length_insertEntry, List.length_tail]
        omega
      · intro x hxm
        rcases mem_insertEntry _ _ _ hxm with rfl | h2
        · exact hdata
        · exact hframes x (List.tail_subset _ h2)
    · rw [if_neg hfull]
      refine ⟨?_, ?_, ?_, fun hr => hbounds hr⟩
      · exact pairwise_insertEntry _ _ hsort hne
      · rw [length_insertEntry]
        omega
      · intro x hxm
        rcases mem_insertEntry _ _ _ hxm with rfl | h2
        · exact hdata
        · exact hframes x h2
  · obtain ⟨c1, c2, c3, c4, c5, _⟩ := add_packet_reject b sid ts data h
    rw [JitterBuffer.wf, c1, c2, c3, c4, c5]
    exact ⟨hsort, hlen, hframes, hbounds⟩

/-- `get_next_packet` on a ready, non-empty buffer pops the head (the
smallest stored key). -/
theorem get_next_packet_pop {α : Type} (b : JitterBuffer α) (e : JEntry α)
    (rest : List (JEntry α)) (hready : b.ready = true) (hb : b.buffer = e :: rest) :
    b.get_next_packet =
      ({ b with buffer := rest, next_expected_sequence := e.sequence_id + 1, packets_retrieved := b.packets_retrieved + 1 }, some e) := by
  rw [JitterBuffer.get_next_packet, if_neg (by simp [hready])]
  rw [hb]

theorem get_next_packet_not_ready {α : Type} (b : JitterBuffer α)
    (hready : b.ready = false) : b.get_next_packet = (b, none) := by
  rw [JitterBuffer.get_next_packet, if_pos (by simp [hready])]

theorem get_next_packet_empty {α : Type} (b : JitterBuffer α)
    (hb : b.buffer = []) : b.get_next_packet = (b, none) := by
  rw [JitterBuffer.get_next_packet, hb]
  split <;> rfl

theorem get_next_packet_wf {α : Type} (b : JitterBuffer α) (hwf : b.wf) :
    b.get_next_packet.1.wf := by
  obtain ⟨hsort, hlen, hframes, hbounds⟩ := hwf
  by_cases hready : b.ready = true
  · match hb : b.buffer with
    | [] =>
      rw [get_next_packet_empty b hb]
      exact ⟨hsort, hlen, hframes, hbounds⟩
    | e :: rest =>
      rw [get_next_packet_pop b e rest hready hb]
      rw [hb] at hsort hlen hframes
      refine ⟨(List.pairwise_cons.mp hsort).2, ?_, ?_, fun hr => hbounds hr⟩
      · simp only [List.length_cons] at hlen
        simpa using Nat.le_of_succ_le hlen
      · intro x hxm
        exact hframes x (List.mem_cons_of_mem e hxm)
  · rw [get_next_packet_not_ready b (by simpa using hready)]
    exact ⟨hsort, hlen, hframes, hbounds⟩

/-- On a ready buffer the extraction loop returns exactly the stored
entries, in ascending key order. -/
theorem drainLoop_eq {α : Type} (l : List (JEntry α)) : ∀ b : JitterBuffer α,
    b.ready = true → b.buffer = l → drainLoop l.length b = l := by
  induction l with
  | nil =>
    intro b _ _
    rfl
  | cons e rest ih =>
    intro b hr hb
    rw [List.length_cons, drainLoop, if_neg (by simp [hb]),
      get_next_packet_pop b e rest hr hb]
    exact congrArg (List.cons e) (ih _ hr rfl)

/-- Re-adding an ascending run of entries that all fit appends them to the
buffer unchanged. -/
theorem addAll_eq {α : Type} (l : List (JEntry α)) : ∀ b : JitterBuffer α,
    b.ready = true → b.wf →
    (∀ x ∈ b.buffer, ∀ y ∈ l, x.sequence_id < y.sequence_id) →
    l.Pairwise (fun x y => x.sequence_id < y.sequence_id) →
    (∀ y ∈ l, y.audio_data.length = b.frame_size * b.channels) →
    b.buffer.length + l.length ≤ b.capacity →
    (l.foldl (fun nb e => (nb.add_packet e.sequence_id e.timestamp e.audio_data).1)
        b).buffer = b.buffer ++ l := by
  induction l with
  | nil =>
    intro b _ _ _ _ _ _
    simp
  | cons e rest ih =>
    intro b hr hwf hgt hpair hframes hfit
    have hcapwf := hwf.2.1
    have hdup : (b.buffer.any fun x => x.sequence_id == e.sequence_id) = false := by
      rw [List.any_eq_false]
      intro x hx
      have := hgt x hx e (List.mem_cons_self e rest)
      simp
      omega
    have hdata : e.audio_data.length = b.frame_size * b.channels :=
      hframes e (List.mem_cons_self e rest)
    obtain ⟨c1, c2, c3, c4, c5, _⟩ := add_packet_state b e.sequence_id e.timestamp
      e.audio_data hr hdata hdup
    have hroom : ¬ b.capacity ≤ b.buffer.length := by
      simp only [List.length_cons] at hfit
      omega
    rw [if_neg hroom] at c1
    have hbuf2 : (b.add_packet e.sequence_id e.timestamp e.audio_data).1.buffer =
        b.buffer ++ [e] := by
      rw [c1, insertEntry_append]
      intro x hx
      exact hgt x hx e (List.mem_cons_self e rest)
    rw [List.foldl_cons]
    rw [ih ((b.add_packet e.sequence_id e.timestamp e.audio_data).1)
      (by rw [c5]; exact hr)
      (add_packet_wf b e.sequence_id e.timestamp e.audio_data hwf)
      ?_ (List.pairwise_cons.mp hpair).2 ?_ ?_]
    · rw [hbuf2, List.append_assoc]
      rfl
    · intro x hx y hy
      rw [hbuf2] at hx
      rcases List.mem_append.mp hx with h1 | h2
      · exact hgt x h1 y (List.mem_cons_of_mem e hy)
      · have hxe : x = e := by simpa using h2
        subst hxe
        exact (List.pairwise_cons.mp hpair).1 y hy
    · intro y hy
      rw [c3, c4]
      exact hframes y (List.mem_cons_of_mem e hy)
    · rw [hbuf2, c2, List.length_append]
      simp only [List.length_cons] at hfit
      simp
      omega

/-- `migrate_packets_to_new_buffer` preserves the stored entries exactly
whenever the new capacity is a valid buffer capacity and at least the
current fill level. -/
theorem migrate_preserves {α : Type} (a : AdaptiveJitterBuffer α) (c : Nat)
    (hwf : a.wf) (hready : a.jitter_buffer.ready = true)
    (hc1 : MIN_CAPACITY ≤ c) (hc2 : c ≤ MAX_CAPACITY)
    (hfit : a.jitter_buffer.buffer.length ≤ c) :
    (a.migrate_packets_to_new_buffer c).buffer = a.jitter_buffer.buffer := by
  obtain ⟨⟨hsort, hlen, hframes, hbounds⟩, hfs, hch⟩ := hwf
  obtain ⟨_, _, hf1, hf2, hch1, hch2⟩ := hbounds hready
  have hbnd : MIN_CAPACITY ≤ c ∧ c ≤ MAX_CAPACITY ∧
      MIN_FRAME_SIZE ≤ a.frame_size ∧ a.frame_size ≤ MAX_FRAME_SIZE ∧
      MIN_CHANNELS ≤ a.channels ∧ a.channels ≤ MAX_CHANNELS := by
    rw [← hfs, ← hch]
    exact ⟨hc1, hc2, hf1, hf2, hch1, hch2⟩
  have hmkready : (mkJitterBuffer α c a.frame_size a.channels).ready = true := by
    rw [mkJitterBuffer]
    simp only [decide_eq_true_eq]
    exact hbnd
  rw [AdaptiveJitterBuffer.migrate_packets_to_new_buffer,
    drainLoop_eq _ _ hready rfl,
    addAll_eq _ _ hmkready ?_ (by intro x hx; simp [mkJitterBuffer] at hx) hsort ?_ ?_]
  · rfl
  · refine ⟨List.Pairwise.nil, by simp [mkJitterBuffer], ?_, fun _ => hbnd⟩
    intro x hx
    simp [mkJitterBuffer] at hx
  · intro y hy
    have hy2 : y.audio_data.length = a.frame_size * a.channels := by
      rw [← hfs, ← hch]
      exact hframes y hy
    exact hy2
  · rw [mkJitterBuffer]
    simpa using hfit

/-- C2 (counterexample): an adaptive buffer of capacity 2 holding entries
with sequence ids 1 and 2, shrunk to capacity 1 via `set_capacity`, keeps
only the entry with sequence id 2 — the migration evicts the smallest
stored entry, so the multiset of stored entries changes. -/
theorem migrate_counterexample :
    ((adaptiveDemo.set_capacity 1).1.jitter_buffer.buffer : Multiset (JEntry Unit)) ≠
      (adaptiveDemo.jitter_buffer.buffer : Multiset (JEntry Unit)) ∧
    (adaptiveDemo.set_capacity 1).2 = true ∧
    adaptiveDemo.jitter_buffer.buffer.length = 2 ∧
    (adaptiveDemo.set_capacity 1).1.jitter_buffer.buffer.map
      (fun e => e.sequence_id) = [2] := by
  refine ⟨?_, by decide, by decide, by decide⟩
  intro h
  have hlen := congrArg Multiset.card h
  simp only [Multiset.coe_card] at hlen
  have h1 : (adaptiveDemo.set_capacity 1).1.jitter_buffer.buffer.length = 1 := by decide
  have h2 : adaptiveDemo.jitter_buffer.buffer.length = 2 := by decide
  omega

/-- C2 (amended): after a capacity change via `set_capacity` (and hence
the shared `apply_capacity_change` migration of the adaptive loop), the
multiset of stored entries is unchanged, provided the new capacity is a
valid underlying-buffer capacity that is at least the number of currently
stored entries; a smaller capacity evicts the smallest-sequence entries. -/
theorem set_capacity_preserves_entries {α : Type} (a : AdaptiveJitterBuffer α) (c : Nat)
    (hwf : a.wf) (hready : a.jitter_buffer.ready = true)
    (hc1 : MIN_CAPACITY ≤ c) (hc2 : c ≤ MAX_CAPACITY)
    (hfit : a.jitter_buffer.buffer.length ≤ c) :
    ((a.set_capacity c).1.jitter_buffer.buffer : Multiset (JEntry α)) =
      (a.jitter_buffer.buffer : Multiset (JEntry α)) := by
  rw [AdaptiveJitterBuffer.set_capacity]
  by_cases hrange : c < a.config.min_capacity ∨ a.config.max_capacity < c
  · rw [if_pos hrange]
  · rw [if_neg hrange, AdaptiveJitterBuffer.apply_capacity_change]
    by_cases heq : c = a.stats.current_capacity
    · rw [if_pos heq]
    · rw [if_neg heq]
      exact congrArg _ (migrate_preserves a c hwf hready hc1 hc2 hfit)

theorem set_capacity_preserves_entries_witness :
    adaptiveDemo.wf ∧ adaptiveDemo.jitter_buffer.ready = true ∧
    MIN_CAPACITY ≤ 3 ∧ 3 ≤ MAX_CAPACITY ∧ adaptiveDemo.jitter_buffer.buffer.length ≤ 3 ∧
    ((adaptiveDemo.set_capacity 3).1.jitter_buffer.buffer : Multiset (JEntry Unit)) =
      (adaptiveDemo.jitter_buffer.buffer : Multiset (JEntry Unit)) :=
  ⟨by decide, by decide, by decide, by decide, by decide,
   set_capacity_preserves_entries adaptiveDemo 3 (by decide) (by decide) (by decide)
     (by decide) (by decide)⟩

theorem ajb_add_parts {α : Type} (a : AdaptiveJitterBuffer α) (sid ts : Nat)
    (data : List α) :
    (a.add_packet sid ts data).1.jitter_buffer = (a.jitter_buffer.add_packet sid ts data).1 ∧
    (a.add_packet sid ts data).1.frame_size = a.frame_size ∧
    (a.add_packet sid ts data).1.channels = a.channels := by
  simp only [AdaptiveJitterBuffer.add_packet]
  split <;> exact ⟨rfl, rfl, rfl⟩

theorem ajb_pop_parts {α : Type} (a : AdaptiveJitterBuffer α) :
    a.get_next_packet.1.jitter_buffer = a.jitter_buffer.get_next_packet.1 ∧
    a.get_next_packet.1.frame_size = a.frame_size ∧
    a.get_next_packet.1.channels = a.channels ∧
    a.get_next_packet.2 = a.jitter_buffer.get_next_packet.2 := by
  simp only [AdaptiveJitterBuffer.get_next_packet]
  split <;> split <;> and_intros <;> first | rfl | trivial

theorem addAll_fields {α : Type} (l : List (JEntry α)) : ∀ b : JitterBuffer α,
    (l.foldl (fun nb e => (nb.add_packet e.sequence_id e.timestamp e.audio_data).1)
        b).capacity = b.capacity ∧
    (l.foldl (fun nb e => (nb.add_packet e.sequence_id e.timestamp e.audio_data).1)
        b).frame_size = b.frame_size ∧
    (l.foldl (fun nb e => (nb.add_packet e.sequence_id e.timestamp e.audio_data).1)
        b).channels = b.channels := by
  induction l with
  | nil => exact fun b => ⟨rfl, rfl, rfl⟩
  | cons e rest ih =>
    intro b
    rw [List.foldl_cons]
    obtain ⟨i1, i2, i3⟩ := ih (b.add_packet e.sequence_id e.timestamp e.audio_data).1
    obtain ⟨f1, f2, f3, _⟩ := add_packet_fields b e.sequence_id e.timestamp e.audio_data
    exact ⟨i1.trans f1, i2.trans f2, i3.trans f3⟩

theorem addAll_wf {α : Type} (l : List (JEntry α)) : ∀ b : JitterBuffer α, b.wf →
    (l.foldl (fun nb e => (nb.add_packet e.sequence_id e.timestamp e.audio_data).1)
        b).wf := by
  induction l with
  | nil => exact fun b hb => hb
  | cons e rest ih =>
    intro b hb
    rw [List.foldl_cons]
    exact ih _ (add_packet_wf b e.sequence_id e.timestamp e.audio_data hb)

theorem addAll_mem {α : Type} (l : List (JEntry α)) : ∀ (b : JitterBuffer α) (x : JEntry α),
    x ∈ (l.foldl (fun nb e => (nb.add_packet e.sequence_id e.timestamp e.audio_data).1)
        b).buffer → x ∈ b.buffer ∨ x ∈ l := by
  induction l with
  | nil =>
    intro b x hx
    exact Or.inl hx
  | cons e rest ih =>
    intro b x hx
    rw [List.foldl_cons] at hx
    rcases ih _ x hx with h1 | h2
    · rcases add_packet_mem b e.sequence_id e.timestamp e.audio_data x h1 with h3 | h4
      · exact Or.inl h3
      · right
        rw [h4]
        have : (⟨e.sequence_id, e.timestamp, e.audio_data⟩ : JEntry α) = e := rfl
        rw [this]
        exact List.mem_cons_self e rest
    · exact Or.inr (List.mem_cons_of_mem e h2)

theorem mkJitterBuffer_wf {α : Type} (c fs ch : Nat) : (mkJitterBuffer α c fs ch).wf := by
  refine ⟨List.Pairwise.nil, Nat.zero_le _, ?_, ?_⟩
  · intro x hx
    simp [mkJitterBuffer] at hx
  · intro hr
    exact of_decide_eq_true hr

theorem drainLoop_subset {α : Type} : ∀ (fuel : Nat) (b : JitterBuffer α),
    ∀ x ∈ drainLoop fuel b, x ∈ b.buffer := by
  intro fuel
  induction fuel with
  | zero =>
    intro b x hx
    simp [drainLoop] at hx
  | succ n ih =>
    intro b x hx
    rw [drainLoop] at hx
    by_cases hemp : b.buffer.isEmpty
    · rw [if_pos hemp] at hx
      simp at hx
    · rw [if_neg hemp] at hx
      by_cases hready : b.ready = true
      · match hb : b.buffer with
        | [] => simp [hb] at hemp
        | e :: rest =>
          rw [get_next_packet_pop b e rest hready hb] at hx
          rcases List.mem_cons.mp hx with rfl | h2
          · exact List.mem_cons_self _ _
          · exact List.mem_cons_of_mem _ (ih _ x h2)
      · rw [get_next_packet_not_ready b (by simpa using hready)] at hx
        simp at hx

theorem migrate_wf {α : Type} (a : AdaptiveJitterBuffer α) (c : Nat) :
    (a.migrate_packets_to_new_buffer c).wf := by
  rw [AdaptiveJitterBuffer.migrate_packets_to_new_buffer]
  exact addAll_wf _ _ (mkJitterBuffer_wf c a.frame_size a.channels)

theorem migrate_fields {α : Type} (a : AdaptiveJitterBuffer α) (c : Nat) :
    (a.migrate_packets_to_new_buffer c).frame_size = a.frame_size ∧
    (a.migrate_packets_to_new_buffer c).channels = a.channels := by
  rw [AdaptiveJitterBuffer.migrate_packets_to_new_buffer]
  obtain ⟨_, f2, f3⟩ := addAll_fields
    (drainLoop a.jitter_buffer.buffer.length a.jitter_buffer)
    (mkJitterBuffer α c a.frame_size a.channels)
  exact ⟨f2, f3⟩

theorem migrate_mem {α : Type} (a : AdaptiveJitterBuffer α) (c : Nat) (x : JEntry α)
    (hx : x ∈ (a.migrate_packets_to_new_buffer c).buffer) :
    x ∈ a.jitter_buffer.buffer := by
  rw [AdaptiveJitterBuffer.migrate_packets_to_new_buffer] at hx
  rcases addAll_mem _ _ x hx with h1 | h2
  · simp [mkJitterBuffer] at h1
  · exact drainLoop_subset _ _ x h2

theorem set_capacity_parts {α : Type} (a : AdaptiveJitterBuffer α) (c : Nat) :
    ((a.set_capacity c).1.jitter_buffer = a.jitter_buffer ∨
      (a.set_capacity c).1.jitter_buffer = a.migrate_packets_to_new_buffer c) ∧
    (a.set_capacity c).1.frame_size = a.frame_size ∧
    (a.set_capacity c).1.channels = a.channels := by
  rw [AdaptiveJitterBuffer.set_capacity]
  by_cases h : c < a.config.min_capacity ∨ a.config.max_capacity < c
  · rw [if_pos h]
    exact ⟨Or.inl rfl, rfl, rfl⟩
  · rw [if_neg h, AdaptiveJitterBuffer.apply_capacity_change]
    by_cases h2 : c = a.stats.current_capacity
    · rw [if_pos h2]
      exact ⟨Or.inl rfl, rfl, rfl⟩
    · rw [if_neg h2]
      exact ⟨Or.inr rfl, rfl, rfl⟩

theorem get_next_fields {α : Type} (b : JitterBuffer α) :
    b.get_next_packet.1.capacity = b.capacity ∧
    b.get_next_packet.1.frame_size = b.frame_size ∧
    b.get_next_packet.1.channels = b.channels ∧
    b.get_next_packet.1.ready = b.ready := by
  rw [JitterBuffer.get_next_packet]
  split
  · exact ⟨rfl, rfl, rfl, rfl⟩
  · split <;> exact ⟨rfl, rfl, rfl, rfl⟩

theorem ajb_add_wf {α : Type} (a : AdaptiveJitterBuffer α) (sid ts : Nat) (data : List α)
    (hwf : a.wf) : (a.add_packet sid ts data).1.wf := by
  obtain ⟨j1, j2, j3⟩ := ajb_add_parts a sid ts data
  obtain ⟨_, f2, f3, _⟩ := add_packet_fields a.jitter_buffer sid ts data
  refine ⟨?_, ?_, ?_⟩
  · rw [j1]
    exact add_packet_wf _ _ _ _ hwf.1
  · rw [j1, j2, f2]
    exact hwf.2.1
  · rw [j1, j3, f3]
    exact hwf.2.2

theorem ajb_setcap_wf {α : Type} (a : AdaptiveJitterBuffer α) (c : Nat)
    (hwf : a.wf) : (a.set_capacity c).1.wf := by
  obtain ⟨hd, s2, s3⟩ := set_capacity_parts a c
  rcases hd with h | h
  · exact ⟨h ▸ hwf.1, by rw [h, s2]; exact hwf.2.1, by rw [h, s3]; exact hwf.2.2⟩
  · refine ⟨h ▸ migrate_wf a c, ?_, ?_⟩
    · rw [h, s2]
      exact (migrate_fields a c).1
    · rw [h, s3]
      exact (migrate_fields a c).2

theorem ajb_pop_wf {α : Type} (a : AdaptiveJitterBuffer α) (hwf : a.wf) :
    a.get_next_packet.1.wf := by
  obtain ⟨p1, p2, p3, _⟩ := ajb_pop_parts a
  obtain ⟨_, f2, f3, _⟩ := get_next_fields a.jitter_buffer
  refine ⟨?_, ?_, ?_⟩
  · rw [p1]
    exact get_next_packet_wf _ hwf.1
  · rw [p1, p2, f2]
    exact hwf.2.1
  · rw [p1, p3, f3]
    exact hwf.2.2

/-- `get_next_packet` on the adaptive wrapper either returns nothing and
leaves the stored entries unchanged, or pops the head entry. -/
theorem ajb_pop_cases {α : Type} (a : AdaptiveJitterBuffer α) :
    (a.get_next_packet.2 = none ∧
      a.get_next_packet.1.jitter_buffer.buffer = a.jitter_buffer.buffer) ∨
    (∃ e rest, a.jitter_buffer.buffer = e :: rest ∧
      a.jitter_buffer.ready = true ∧
      a.get_next_packet.2 = some e ∧
      a.get_next_packet.1.jitter_buffer.buffer = rest) := by
  obtain ⟨p1, _, _, p4⟩ := ajb_pop_parts a
  by_cases hready : a.jitter_buffer.ready = true
  · match hb : a.jitter_buffer.buffer with
    | [] =>
      left
      have hpop := get_next_packet_empty a.jitter_buffer hb
      rw [p4, hpop, p1, hpop, hb]
      exact ⟨rfl, rfl⟩
    | e :: rest =>
      right
      have hpop := get_next_packet_pop a.jitter_buffer e rest hready hb
      exact ⟨e, rest, rfl, hready, by rw [p4, hpop], by rw [p1, hpop]⟩
  · left
    have hpop := get_next_packet_not_ready a.jitter_buffer (by simpa using hready)
    rw [p4, hpop, p1, hpop]
    exact ⟨rfl, rfl⟩

theorem runOps_chain_aux {α : Type} (ops : List (JOp α)) :
    ∀ (a : AdaptiveJitterBuffer α) (m : Option Nat),
    a.wf →
    (∀ e ∈ a.jitter_buffer.buffer, ∀ k, m = some k → k < e.sequence_id) →
    freshAdds a m ops = true →
    List.Chain' (· < ·) (m.toList ++ (runOps a ops).2.map (fun e => e.sequence_id)) := by
  induction ops with
  | nil =>
    intro a m _ _ _
    rw [runOps]
    cases m <;> simp
  | cons op rest ih =>
    intro a m hwf hkeys hfresh
    cases op with
    | add sid ts data =>
      rw [runOps]
      simp only [freshAdds, Bool.and_eq_true] at hfresh
      obtain ⟨hm, hfresh'⟩ := hfresh
      obtain ⟨j1, _, _⟩ := ajb_add_parts a sid ts data
      refine ih _ m (ajb_add_wf a sid ts data hwf) ?_ hfresh'
      intro e he k hk
      rw [j1] at he
      rcases add_packet_mem _ _ _ _ e he with h1 | h2
      · exact hkeys e h1 k hk
      · rw [h2]
        rw [hk] at hm
        exact of_decide_eq_true hm
    | pop =>
      simp only [runOps]
      simp only [freshAdds] at hfresh
      rcases ajb_pop_cases a with ⟨hn, hbuf⟩ | ⟨e, brest, hb, _, hsome, hbuf⟩
      · rw [hn] at hfresh ⊢
        simp only [Option.toList_none, List.nil_append]
        exact ih _ m (ajb_pop_wf a hwf) (fun x hx => hkeys x (hbuf ▸ hx)) hfresh
      · rw [hsome] at hfresh ⊢
        have hsorted := hwf.1.1
        rw [hb, List.pairwise_cons] at hsorted
        have hstep := ih a.get_next_packet.1 (some e.sequence_id)
          (ajb_pop_wf a hwf)
          (fun x hx k hk => by
            rw [hbuf] at hx
            have h1 := hsorted.1 x hx
            injection hk with h2
            omega)
          hfresh
        simp only [Option.toList_some, List.singleton_append] at hstep
        simp only [Option.toList_some, List.map_append, List.map_cons, List.map_nil,
          List.singleton_append]
        cases m with
        | none =>
          simpa using hstep
        | some k =>
          have hke : k < e.sequence_id :=
            hkeys e (hb ▸ List.mem_cons_self e brest) k rfl
          simp only [Option.toList_some, List.singleton_append]
          exact List.chain'_cons.mpr ⟨hke, hstep⟩
    | setCap c =>
      rw [runOps]
      simp only [freshAdds] at hfresh
      obtain ⟨hd, _, _⟩ := set_capacity_parts a c
      refine ih _ m (ajb_setcap_wf a c hwf) ?_ hfresh
      intro x hx k hk
      rcases hd with h | h
      · rw [h] at hx
        exact hkeys x hx k hk
      · rw [h] at hx
        exact hkeys x (migrate_mem a c x hx) k hk

/-- C3 (counterexample): admitting sequence id 5, retrieving it, then
admitting sequence id 3 and retrieving again yields the retrieval sequence
5, 3 — the buffer re-admits ids below the last retrieval, so the retrieved
sequence ids are not strictly increasing for arbitrary interleavings. -/
theorem pop_not_increasing_counterexample :
    ¬ List.Chain' (· < ·)
      ((runOps (mkAdaptiveJitterBuffer Unit 64 1 {})
        [JOp.add 5 0 (List.replicate 64 ()), JOp.pop,
         JOp.add 3 0 (List.replicate 64 ()), JOp.pop]).2.map
        (fun e => e.sequence_id)) := by
  intro h
  have hmap : (runOps (mkAdaptiveJitterBuffer Unit 64 1 {})
      [JOp.add 5 0 (List.replicate 64 ()), JOp.pop,
       JOp.add 3 0 (List.replicate 64 ()), JOp.pop]).2.map
      (fun e => e.sequence_id) = [5, 3] := by decide
  rw [hmap] at h
  exact absurd (List.chain'_cons.mp h).1 (by decide)

/-- C3 (amended): for every finite trace of admissions, retrievals and
capacity changes on a well-formed adaptive jitter buffer, the sequence of
sequence ids returned by successive `get_next_packet` calls is strictly
increasing, provided every admission's sequence id exceeds the already
retrieved sequence ids. -/
theorem runOps_strictly_increasing {α : Type} (a : AdaptiveJitterBuffer α)
    (ops : List (JOp α)) (hwf : a.wf) (hfresh : freshAdds a none ops = true) :
    List.Chain' (· < ·) ((runOps a ops).2.map (fun e => e.sequence_id)) := by
  have h := runOps_chain_aux ops a none hwf (by intro e _ k hk; cases hk) hfresh
  simpa using h

theorem runOps_strictly_increasing_witness :
    (mkAdaptiveJitterBuffer Unit 64 1 {}).wf ∧
    freshAdds (mkAdaptiveJitterBuffer Unit 64 1 {}) none
      [JOp.add 5 0 (List.replicate 64 ()), JOp.add 3 0 (List.replicate 64 ()),
       JOp.pop, JOp.setCap 4, JOp.pop] = true ∧
    (runOps (mkAdaptiveJitterBuffer Unit 64 1 {})
      [JOp.add 5 0 (List.replicate 64 ()), JOp.add 3 0 (List.replicate 64 ()),
       JOp.pop, JOp.setCap 4, JOp.pop]).2.map (fun e => e.sequence_id) = [3, 5] ∧
    List.Chain' (· < ·)
      ((runOps (mkAdaptiveJitterBuffer Unit 64 1 {})
        [JOp.add 5 0 (List.replicate 64 ()), JOp.add 3 0 (List.replicate 64 ()),
         JOp.pop, JOp.setCap 4, JOp.pop]).2.map (fun e => e.sequence_id)) :=
  ⟨by decide, by decide, by decide,
   runOps_strictly_increasing (mkAdaptiveJitterBuffer Unit 64 1 {})
     [JOp.add 5 0 (List.replicate 64 ()), JOp.add 3 0 (List.replicate 64 ()),
      JOp.pop, JOp.setCap 4, JOp.pop] (by decide) (by decide)⟩

end AudioStreamer
